import Mathlib

/-!
Batch upload orchestrator of `backend/static/app.js`

A shallow embedding of `handleFiles`, `appendResults` and `updateProgress`
(`src/backend/static/app.js`) together with the properties the specification
states about them.

Conventions of the embedding.

* The page (the DOM nodes the script writes to) is an explicit record `Page`;
  every observable action of the script (`alert`, `console.error`, `fetch`,
  `updateProgress`) is appended to a chronological `trace`.
* The only suspension points are `await fetch(...)` and `await response.json()`;
  what they resolve to is supplied by an environment `Env`, indexed by the
  number of earlier `fetch` calls of the run.
* A parsed response body is a JSON object whose members, when present, have the
  types of the HTTP contract; each member may be absent (`none` is the
  JavaScript `undefined` obtained by reading a missing property).
* The accumulators are JavaScript numbers, modelled by integers (exact below
  `2 ^ 53`) plus `NaN`. The division and the product in
  `Math.round((i / totalFiles) * 100)` are IEEE 754 binary64 operations and are
  modelled as such: the exact quotient and the exact product are each rounded to
  the nearest double, ties to even.
* Markup assigned to `innerHTML` is kept as the string the script builds; what a
  row shows is obtained by reading that string back (`readRow`).
* A thrown value is represented by its `message`, the only part `catch` uses.
-/

namespace ActasApp

/-! ## Data model -/

/-- One entry of the `FileList` handed to `handleFiles`. -/
structure FileHandle where
  name : String
  content : List Nat
deriving DecidableEq, Repr

/-- The `metadata` member of an outcome; every field is optional. -/
structure Metadata where
  anio : Option String
  nivel : Option String
  grado_seccion : Option String
deriving DecidableEq, Repr

/-- One element of `resultados`. -/
structure FileOutcome where
  estado : String
  nuevo_nombre : Option String
  mensaje : Option String
  metadata : Option Metadata
deriving DecidableEq, Repr

/-- A response body that parsed as a JSON object, seen through the members the
script reads. -/
structure ResponseObject where
  detail : Option String
  exitosos : Option Int
  fallidos : Option Int
  resultados : Option (List FileOutcome)
deriving DecidableEq, Repr

/-- What `await response.json()` does: reject with a `SyntaxError` carrying
`message`, or resolve to a parsed object. -/
inductive Body where
  | unparseable (message : String)
  | json (o : ResponseObject)
deriving DecidableEq, Repr

/-- What `await fetch(...)` does: reject (transport error) or resolve to a
response with an HTTP status and a body. -/
inductive FetchResult where
  | networkError (message : String)
  | response (status : Nat) (body : Body)
deriving DecidableEq, Repr

/-- The world outside the script. -/
structure Env where
  /-- Result of the `k`-th call of `fetch` in a run (`k = 0, 1, ...`). -/
  fetch : Nat → FetchResult
  /-- Message of the `TypeError` the engine raises for `undefined.forEach`. -/
  typeErrorMessage : String

/-- A JavaScript number as the accumulators hold it. -/
inductive JSNumber where
  | int (n : Int)
  | nan
deriving DecidableEq, Repr

/-- A `<tr>` appended to `#results-body`. -/
structure Row where
  className : String
  innerHTML : String
deriving DecidableEq, Repr

/-- The DOM state the script reads and writes. -/
structure Page where
  progressContainerHidden : Bool
  resultsContainerHidden : Bool
  resultsBody : List Row
  statSuccess : String
  statFail : String
  progressBarWidth : String
  progressPercent : String
  statusText : String
deriving DecidableEq, Repr

/-- Observable actions, in the order the script performs them. -/
inductive Event where
  | alert (text : String)
  | consoleError (message : String)
  | fetch (files : List FileHandle)
  | updateProgress (percent : Nat) (text : Option String)
deriving DecidableEq, Repr

/-- The locals of `handleFiles` inside the loop, the page, and the trace. -/
structure RunState where
  exitososTotal : JSNumber
  fallidosTotal : JSNumber
  fetchCalls : Nat
  page : Page
  trace : List Event
deriving DecidableEq, Repr

/-! ## JavaScript primitives used by the script -/

/-- `String.prototype.toLowerCase`, on the ASCII range (no other character
lower-cases to `.`, `p`, `d` or `f`). -/
def toLowerCase (s : String) : String := String.mk (s.data.map Char.toLower)

/-- `String.prototype.toUpperCase`, on the ASCII range (which holds the status
values `success` and `error` of the HTTP contract). -/
def toUpperCase (s : String) : String := String.mk (s.data.map Char.toUpper)

/-- `String.prototype.endsWith`. -/
def endsWith (s suffix : String) : Bool := suffix.data.isSuffixOf s.data

/-- `Array.prototype.slice(start, end)` for non-negative indices. -/
def slice {α : Type} (xs : List α) (start stop : Nat) : List α :=
  (xs.take stop).drop start

/-- Truthiness of an optional string: `undefined` and `""` are falsy. -/
def truthy : Option String → Bool
  | none => false
  | some s => s != ""

/-- The operator `a || b` on optional strings. -/
def orElse (a b : Option String) : Option String :=
  if truthy a then a else b

/-- Conversion of an optional string inside a template literal. -/
def strToString : Option String → String
  | none => "undefined"
  | some s => s

/-- Conversion of a number inside a template literal. -/
def JSNumber.toStr : JSNumber → String
  | .int n => toString n
  | .nan => "NaN"

/-- The statement `total += member`: adding `undefined` or to `NaN` gives `NaN`. -/
def JSNumber.add : JSNumber → Option Int → JSNumber
  | .int a, some b => .int (a + b)
  | _, _ => .nan

/-- `response.ok`: the status is in the range 200-299. -/
def responseOk (status : Nat) : Bool := 200 ≤ status && status ≤ 299

/-- A non-negative rational `num / den`; every double the script computes is
such a value. -/
structure Fraction where
  num : Nat
  den : Nat
deriving DecidableEq, Repr

/-- Halve `n` until it is below 2, at most `fuel` times, counting the steps. -/
def log2Aux : Nat → Nat → Nat
  | 0, _ => 0
  | fuel + 1, n => if 2 ≤ n then log2Aux fuel (n / 2) + 1 else 0

/-- The position of the leading bit of `n ≥ 1`, that is `⌊log₂ n⌋`. -/
def floorLog2 (n : Nat) : Nat := log2Aux n n

/-- The integer nearest to `n / d`; of two equally near, the even one. -/
def roundHalfEven (n d : Nat) : Nat :=
  if 2 * (n % d) < d then n / d
  else if d < 2 * (n % d) then n / d + 1
  else if n / d % 2 = 0 then n / d else n / d + 1

/-- The IEEE 754 binary64 number nearest to `a / b`, ties to even: the result of
a double operation whose exact value is `a / b`. The value is scaled by the power
of two that brings it into `[2 ^ 52, 2 ^ 53)`, rounded to an integer (the 53-bit
significand) and scaled back. The exponent range is not bounded: no quotient or
product of the script leaves the normal range. -/
def toDouble (a b : Nat) : Fraction :=
  if a = 0 then ⟨0, 1⟩
  else
    let adj := if b * 2 ^ floorLog2 a ≤ a * 2 ^ floorLog2 b then 0 else 1
    let up := 52 + floorLog2 b + adj - floorLog2 a
    let down := floorLog2 a - (52 + floorLog2 b + adj)
    ⟨roundHalfEven (a * 2 ^ up) (b * 2 ^ down) * 2 ^ down, 2 ^ up⟩

/-- `Math.round(x)` for `x ≥ 0`: the integer nearest to `x`, halves rounded up. -/
def mathRound (x : Fraction) : Nat := (2 * x.num + x.den) / (2 * x.den)

/-- `Math.round((i / totalFiles) * 100)` for `totalFiles > 0`: the quotient of
the two integers (exact doubles, being below `2 ^ 53`) is rounded to a double,
its product by 100 is rounded to a double, and `Math.round` takes the nearest
integer. For instance `i = 230`, `totalFiles = 400` gives 57: the product is the
double just below 57.5. -/
def roundPercent (i totalFiles : Nat) : Nat :=
  let q := toDouble i totalFiles
  mathRound (toDouble (q.num * 100) q.den)

/-- `const batchSize = 10`. -/
def batchSize : Nat := 10

/-- The message thrown at line 103 when the error body carries no usable `detail`. -/
def genericMessage : String := "Error en el procesamiento del lote"

/-- The notice of line 69. -/
def noPdfNotice : String := "No se detectaron archivos PDF en la selección."

/-- The status text of line 119. -/
def completionText : String := "¡Todo el procesamiento completado!"

/-! ## `updateProgress` and `appendResults` -/

/-- The function `updateProgress(percent, text)` (lines 145-149). -/
def updateProgress (percent : Nat) (text : Option String) (s : RunState) : RunState :=
  let page := { s.page with
    progressBarWidth := toString percent ++ "%",
    progressPercent := toString percent ++ "%" }
  let page := if truthy text then { page with statusText := strToString text } else page
  { s with page := page, trace := s.trace ++ [Event.updateProgress percent text] }

/-- The strings interpolated into the template of one row (lines 130-139), as
they are written into the markup: raw, without escaping. -/
structure RowCells where
  anio : String
  nivel : String
  grado_seccion : String
  statusClass : String
  estado : String
  title : String
  detalle : String
deriving DecidableEq, Repr

/-- The expression `res.metadata || {}`. -/
def metaOf (res : FileOutcome) : Metadata :=
  match res.metadata with
  | some m => m
  | none => Metadata.mk none none none

/-- The interpolations of the row template, in source order. -/
def rowCells (res : FileOutcome) : RowCells :=
  let isError := res.estado == "error"
  let statusClass :=
    if isError then "text-red-600 font-semibold" else "text-green-600 font-semibold"
  let meta := metaOf res
  { anio := strToString (orElse meta.anio (some "-")),
    nivel := strToString (orElse meta.nivel (some "-")),
    grado_seccion := strToString (orElse meta.grado_seccion (some "-")),
    statusClass := statusClass,
    estado := toUpperCase res.estado,
    title := strToString (orElse res.nuevo_nombre res.mensaje),
    detalle := strToString (orElse res.nuevo_nombre res.mensaje) }

/-- The template literal assigned to `tr.innerHTML` (lines 134-140). -/
def rowHTML (c : RowCells) : String :=
  "\n            <td class=\"px-6 py-4\">" ++ c.anio ++ "</td>" ++
  "\n            <td class=\"px-6 py-4\">" ++ c.nivel ++ "</td>" ++
  "\n            <td class=\"px-6 py-4\">" ++ c.grado_seccion ++ "</td>" ++
  "\n            <td class=\"px-6 py-4 " ++ c.statusClass ++ "\">" ++ c.estado ++ "</td>" ++
  "\n            <td class=\"px-6 py-4 max-w-xs truncate\" title=\"" ++ c.title ++ "\">" ++
    c.detalle ++ "</td>" ++
  "\n        "

/-- The `<tr>` built for one outcome by the callback of `forEach`. -/
def renderRow (res : FileOutcome) : Row :=
  { className := "hover:bg-gray-50 transition border-b border-gray-100 text-sm animate-fade-in",
    innerHTML := rowHTML (rowCells res) }

/-- The function `appendResults(resultados, exitosos, fallidos)` (lines 122-143).
Returns the state reached and, when `resultados.forEach` raises, the message of
the error. -/
def appendResults (env : Env) (resultados : Option (List FileOutcome))
    (exitosos fallidos : JSNumber) (s : RunState) : RunState × Option String :=
  let page := { s.page with
    statSuccess := exitosos.toStr ++ " Éxitos",
    statFail := fallidos.toStr ++ " Errores" }
  match resultados with
  | none => ({ s with page := page }, some env.typeErrorMessage)
  | some rs =>
    let body := rs.foldl (fun rows res => rows ++ [renderRow res]) page.resultsBody
    ({ s with page := { page with resultsBody := body } }, none)

/-! ## `handleFiles` -/

/-- The filter loop (lines 61-66): visit `files[0], files[1], ...` in order and
push the entries whose lower-cased name ends with `.pdf`. -/
def filterPdf (files : List FileHandle) : List FileHandle :=
  files.foldl
    (fun pdfFiles f => if endsWith (toLowerCase f.name) ".pdf" then pdfFiles ++ [f] else pdfFiles)
    []

/-- The "Reset UI" block (lines 74-80). -/
def resetUI (page : Page) : Page :=
  { page with
    progressContainerHidden := false,
    resultsContainerHidden := false,
    resultsBody := [],
    statSuccess := "0 Éxitos",
    statFail := "0 Errores",
    progressBarWidth := "0%",
    progressPercent := "0%" }

/-- The status text of the progress update that precedes a submission (line 93). -/
def batchLabel (i currentStep totalFiles : Nat) : String :=
  "Procesando lote " ++ toString (i / batchSize + 1) ++ "... (" ++ toString currentStep ++ "/" ++
    toString totalFiles ++ ")"

/-- The body of `try` (lines 96-111): the state reached and, when something is
thrown, its message. -/
def tryBlock (env : Env) (batch : List FileHandle) (currentStep totalFiles : Nat)
    (s : RunState) : RunState × Option String :=
  let k := s.fetchCalls
  let s := { s with fetchCalls := k + 1, trace := s.trace ++ [Event.fetch batch] }
  match env.fetch k with
  | FetchResult.networkError message => (s, some message)
  | FetchResult.response status body =>
    if !responseOk status then
      match body with
      | Body.unparseable message => (s, some message)
      | Body.json errorData =>
        (s, some (strToString
          (orElse errorData.detail (some genericMessage))))
    else
      match body with
      | Body.unparseable message => (s, some message)
      | Body.json data =>
        let s := { s with exitososTotal := s.exitososTotal.add data.exitosos }
        let s := { s with fallidosTotal := s.fallidosTotal.add data.fallidos }
        match appendResults env data.resultados s.exitososTotal s.fallidosTotal s with
        | (s, some message) => (s, some message)
        | (s, none) => (updateProgress (roundPercent currentStep totalFiles) none s, none)

/-- One iteration of the loop (lines 88-116) at offset `i`. -/
def batchStep (env : Env) (pdfFiles : List FileHandle) (i : Nat) (s : RunState) : RunState :=
  let totalFiles := pdfFiles.length
  let batch := slice pdfFiles i (i + batchSize)
  let currentStep := i + batch.length
  let s := updateProgress (roundPercent i totalFiles)
    (some (batchLabel i currentStep totalFiles)) s
  match tryBlock env batch currentStep totalFiles s with
  | (s, none) => s
  | (s, some message) =>
    { s with trace := s.trace ++
        [Event.consoleError message, Event.alert ("Error en lote: " ++ message)] }

/-- The loop `for (let i = 0; i < totalFiles; i += batchSize)` (line 87), entered
at offset `i`. The first argument bounds the number of iterations; `none` means
the bound was reached with the loop condition still true. -/
def uploadLoop (env : Env) (pdfFiles : List FileHandle) :
    Nat → Nat → RunState → Option RunState
  | 0, i, s => if i < pdfFiles.length then none else some s
  | fuel + 1, i, s =>
    if i < pdfFiles.length then
      uploadLoop env pdfFiles fuel (i + batchSize) (batchStep env pdfFiles i s)
    else some s

/-- The state in which the loop is entered: the page after "Reset UI" and
`exitososTotal = 0`, `fallidosTotal = 0` (lines 74-83). -/
def initialState (page : Page) : RunState :=
  { exitososTotal := JSNumber.int 0, fallidosTotal := JSNumber.int 0, fetchCalls := 0,
    page := resetUI page, trace := [] }

/-- What a call of `handleFiles` leaves behind: the page, the actions performed,
and the final values of `exitososTotal` / `fallidosTotal` (absent when the call
returned before declaring them). -/
structure Run where
  page : Page
  trace : List Event
  totals : Option (JSNumber × JSNumber)
deriving DecidableEq, Repr

/-- The function `handleFiles(files)` (lines 57-120), called on `page`. The loop
is given `totalFiles` iterations, which it never exhausts (`handleFiles_returns`). -/
def handleFiles (env : Env) (files : List FileHandle) (page : Page) : Option Run :=
  if files.length = 0 then some { page := page, trace := [], totals := none }
  else
    let pdfFiles := filterPdf files
    if pdfFiles.length = 0 then
      some { page := page,
             trace := [Event.alert noPdfNotice],
             totals := none }
    else
      let totalFiles := pdfFiles.length
      match uploadLoop env pdfFiles totalFiles 0 (initialState page) with
      | none => none
      | some s =>
        let s := updateProgress 100 (some completionText) s
        some { page := s.page, trace := s.trace,
               totals := some (s.exitososTotal, s.fallidosTotal) }

/-! ## Projections of a trace -/

/-- The payloads of the requests sent, in order. -/
def requests : List Event → List (List FileHandle)
  | [] => []
  | Event.fetch files :: t => files :: requests t
  | _ :: t => requests t

/-- The percent values passed to `updateProgress`, in order. -/
def percents : List Event → List Nat
  | [] => []
  | Event.updateProgress p _ :: t => p :: percents t
  | _ :: t => percents t

/-- The texts shown with `alert`, in order. -/
def alerts : List Event → List String
  | [] => []
  | Event.alert text :: t => text :: alerts t
  | _ :: t => alerts t

/-! ## Vocabulary of the statements

Definitions used to state and prove the properties: names for intermediate
states of `handleFiles`, for the shapes of a response, and for parts of a trace. -/

/-- The eligibility test of line 63. -/
def isPdf (f : FileHandle) : Bool := endsWith (toLowerCase f.name) ".pdf"

/-- The message thrown inside `try` before any accumulator is touched, if the
result of `fetch` leads there: rejection of `fetch`, a non-success status, or a
success status whose body does not parse. -/
def earlyThrow : FetchResult → Option String
  | FetchResult.networkError message => some message
  | FetchResult.response status body =>
    match body with
    | Body.unparseable message => some message
    | Body.json o =>
      if responseOk status then none
      else some (strToString (orElse o.detail (some genericMessage)))

/-- The state in which `try` is entered at offset `i`. -/
def beforeTry (pdfFiles : List FileHandle) (i : Nat) (s : RunState) : RunState :=
  updateProgress (roundPercent i pdfFiles.length)
    (some (batchLabel i (i + (slice pdfFiles i (i + batchSize)).length) pdfFiles.length)) s

/-- The number of iterations of the loop of line 87 over `n` files. -/
def batchCount (n : Nat) : Nat := (n + 9) / 10

/-- The state after the first `j` iterations of the loop started in `s`. -/
def afterBatches (env : Env) (pdfFiles : List FileHandle) (s : RunState) : Nat → RunState
  | 0 => s
  | j + 1 => batchStep env pdfFiles (batchSize * j) (afterBatches env pdfFiles s j)

/-- The last statement of `handleFiles` (line 119). -/
def finish (s : RunState) : Run :=
  { page := (updateProgress 100 (some completionText) s).page,
    trace := (updateProgress 100 (some completionText) s).trace,
    totals := some (s.exitososTotal, s.fallidosTotal) }

/-- Whether the `try` block of a batch runs to its end: a success status and a
parsed body with a `resultados` array. -/
def completes : FetchResult → Bool
  | FetchResult.response status (Body.json data) => responseOk status && data.resultados.isSome
  | _ => false

/-- The batch at offset `batchSize * m`. -/
def batchAt (pdfFiles : List FileHandle) (m : Nat) : List FileHandle :=
  slice pdfFiles (batchSize * m) (batchSize * m + batchSize)

/-- The percent values one iteration passes to `updateProgress`. -/
def stepPercents (env : Env) (n m : Nat) : List Nat :=
  roundPercent (batchSize * m) n ::
    (if completes (env.fetch m) then [roundPercent (min (batchSize * m + batchSize) n) n] else [])

/-- The part of a trace up to and including its last `fetch`: what happened
before the response to the last request was awaited. Empty when nothing was
requested. -/
def uptoLastFetch : List Event → List Event
  | [] => []
  | e :: t =>
    match uptoLastFetch t with
    | [] =>
      match e with
      | Event.fetch files => [Event.fetch files]
      | _ => []
    | e' :: t' => e :: e' :: t'

/-- A batch response of the expected shape (the `BatchResponse` of the data model). -/
structure BatchResponse where
  exitosos : Int
  fallidos : Int
  resultados : List FileOutcome
deriving DecidableEq, Repr

/-- The well-formed batch response a fetch result carries, if any: a success
status and a parsed body with both counts and `resultados` present. -/
def batchData : FetchResult → Option BatchResponse
  | FetchResult.response status (Body.json data) =>
    match data.exitosos, data.fallidos, data.resultados with
    | some e, some f, some rs => if responseOk status then some ⟨e, f, rs⟩ else none
    | _, _, _ => none
  | _ => none

/-- The submission failed by transport error or by a non-success status. -/
def submissionFailed : FetchResult → Bool
  | FetchResult.networkError _ => true
  | FetchResult.response status _ => !responseOk status

/-- The well-formed responses among the first `k` results of `fetch`, in order. -/
def succeeded (env : Env) (k : Nat) : List BatchResponse :=
  (List.range k).filterMap (fun m => batchData (env.fetch m))

/-- The value of a fraction. -/
def Fraction.val (x : Fraction) : ℚ := (x.num : ℚ) / x.den

/-- The integer nearest to a rational, of two equally near the even one. -/
def rheQ (t : ℚ) : ℤ :=
  if t - ⌊t⌋ < 1 / 2 then ⌊t⌋
  else if 1 / 2 < t - ⌊t⌋ then ⌊t⌋ + 1
  else if ⌊t⌋ % 2 = 0 then ⌊t⌋ else ⌊t⌋ + 1

/-- A table cell read from markup: its attributes, in order, and its text. -/
structure Cell where
  attrs : List (String × String)
  text : String
deriving DecidableEq, Repr

/-- The states of `readCells`: between cells, inside the start tag `<td ...>`
(tag name, attribute names and double-quoted values), inside the text of a cell,
and inside the end tag `</td>`. -/
inductive ReadState where
  | between
  | sawLt
  | sawT
  | sawTd
  | beforeAttr
  | attrName (name : List Char)
  | beforeValue (name : List Char)
  | attrValue (name value : List Char)
  | afterValue
  | text (t : List Char)
  | close1 (t : List Char)
  | close2 (t : List Char)
  | close3 (t : List Char)
  | close4 (t : List Char)
deriving DecidableEq, Repr

/-- HTML white space. -/
def isSpace (c : Char) : Bool := c = ' ' || c = '\n' || c = '\t' || c = '\r' || c = '\x0c'

/-- The part of HTML tokenisation needed to read the markup of a row: a sequence
of `<td name="value" ...>text</td>` separated by white space. As in HTML, a
double-quoted attribute value ends at the first `"`, whatever follows a closing
quote without white space starts a new attribute name, and the text of a cell
ends at the first `<`. Markup outside this form (character references, nested
tags, unquoted values) is not read: the result is `none`. -/
def readCells : ReadState → List (String × String) → List Cell → List Char → Option (List Cell)
  | ReadState.between, _, done, [] => some done
  | _, _, _, [] => none
  | ReadState.between, attrs, done, c :: cs =>
    if isSpace c then readCells ReadState.between attrs done cs
    else if c = '<' then readCells ReadState.sawLt [] done cs
    else none
  | ReadState.sawLt, attrs, done, c :: cs =>
    if c = 't' then readCells ReadState.sawT attrs done cs else none
  | ReadState.sawT, attrs, done, c :: cs =>
    if c = 'd' then readCells ReadState.sawTd attrs done cs else none
  | ReadState.sawTd, attrs, done, c :: cs =>
    if isSpace c then readCells ReadState.beforeAttr attrs done cs
    else if c = '>' then readCells (ReadState.text []) attrs done cs
    else none
  | ReadState.beforeAttr, attrs, done, c :: cs =>
    if isSpace c then readCells ReadState.beforeAttr attrs done cs
    else if c = '>' then readCells (ReadState.text []) attrs done cs
    else if c = '/' || c = '=' then none
    else readCells (ReadState.attrName [c.toLower]) attrs done cs
  | ReadState.attrName name, attrs, done, c :: cs =>
    if isSpace c then readCells ReadState.beforeAttr (attrs ++ [(String.mk name, "")]) done cs
    else if c = '>' then
      readCells (ReadState.text []) (attrs ++ [(String.mk name, "")]) done cs
    else if c = '=' then readCells (ReadState.beforeValue name) attrs done cs
    else if c = '/' then none
    else readCells (ReadState.attrName (name ++ [c.toLower])) attrs done cs
  | ReadState.beforeValue name, attrs, done, c :: cs =>
    if c = '"' then readCells (ReadState.attrValue name []) attrs done cs else none
  | ReadState.attrValue name value, attrs, done, c :: cs =>
    if c = '"' then
      readCells ReadState.afterValue (attrs ++ [(String.mk name, String.mk value)]) done cs
    else if c = '&' then none
    else readCells (ReadState.attrValue name (value ++ [c])) attrs done cs
  | ReadState.afterValue, attrs, done, c :: cs =>
    if isSpace c then readCells ReadState.beforeAttr attrs done cs
    else if c = '>' then readCells (ReadState.text []) attrs done cs
    else if c = '/' || c = '=' then none
    else readCells (ReadState.attrName [c.toLower]) attrs done cs
  | ReadState.text t, attrs, done, c :: cs =>
    if c = '<' then readCells (ReadState.close1 t) attrs done cs
    else if c = '&' then none
    else readCells (ReadState.text (t ++ [c])) attrs done cs
  | ReadState.close1 t, attrs, done, c :: cs =>
    if c = '/' then readCells (ReadState.close2 t) attrs done cs else none
  | ReadState.close2 t, attrs, done, c :: cs =>
    if c = 't' then readCells (ReadState.close3 t) attrs done cs else none
  | ReadState.close3 t, attrs, done, c :: cs =>
    if c = 'd' then readCells (ReadState.close4 t) attrs done cs else none
  | ReadState.close4 t, attrs, done, c :: cs =>
    if c = '>' then readCells ReadState.between [] (done ++ [⟨attrs, String.mk t⟩]) cs else none

/-- The cells of a row, read from the markup assigned to its `innerHTML`. -/
def readRow (html : String) : Option (List Cell) := readCells ReadState.between [] [] html.data

/-- The string contains none of the characters `<`, `"` and `&`, the ones HTML
gives a meaning to in text or in a quoted attribute value. -/
def plain (s : String) : Bool := s.data.all (fun c => c != '<' && c != '"' && c != '&')

/-- An optional string is plain when absent or plain. -/
def plainOpt : Option String → Bool
  | none => true
  | some s => plain s

/-- Every string of the outcome that a row can display is plain. -/
def plainOutcome (res : FileOutcome) : Bool :=
  plain (toUpperCase res.estado) && plainOpt res.nuevo_nombre && plainOpt res.mensaje &&
    plainOpt (metaOf res).anio && plainOpt (metaOf res).nivel &&
    plainOpt (metaOf res).grado_seccion

/-- The fifth cell of a row, the one with the detail text and the `title`. -/
def detailCell (html : String) : Option Cell :=
  match readRow html with
  | some [_, _, _, _, c] => some c
  | _ => none

/-- The value of the attribute `name` of a cell (the first one of that name). -/
def Cell.attr (c : Cell) (name : String) : Option String := c.attrs.lookup name

/-! ## Sample inputs -/

/-- A page before the first run. -/
def pg0 : Page := ⟨true, true, [], "", "", "", "", ""⟩

/-- A page showing the results of an earlier run. -/
def pgUsed : Page :=
  ⟨false, false, [⟨"fila", "<td>2019</td>"⟩], "4 Éxitos", "2 Errores", "100%", "100%",
    completionText⟩

/-- An outcome with status `error` that also carries a new name. -/
def errorWithName : FileOutcome :=
  { estado := "error", nuevo_nombre := some "acta.pdf", mensaje := some "fallo", metadata := none }

/-- A successful outcome whose new name contains double quotes. -/
def quotedName : FileOutcome :=
  { estado := "success", nuevo_nombre := some "acta \"A\".pdf", mensaje := none,
    metadata := none }

/-- An environment in which every request fails in transport. -/
def envDown : Env := ⟨fun _ => FetchResult.networkError "Failed to fetch", "TypeError"⟩

/-- `n` eligible files. -/
def pdfs (n : Nat) : List FileHandle := List.replicate n ⟨"acta.pdf", []⟩

/-- A selection of three files, none of them a PDF. -/
def threeOthers : List FileHandle := [⟨"notas.txt", []⟩, ⟨"acta.docx", []⟩, ⟨"pdf", []⟩]

/-- A selection mixing eligible and other files. -/
def mixedSelection : List FileHandle :=
  [⟨"a.PDF", []⟩, ⟨"b.txt", []⟩, ⟨"c.pdf", []⟩, ⟨"pdf", []⟩, ⟨".Pdf", []⟩]

/-- A successful outcome with partial metadata. -/
def okOutcome : FileOutcome :=
  { estado := "success", nuevo_nombre := some "2020_PRIMARIA_1A.pdf", mensaje := none,
    metadata := some ⟨some "2020", some "PRIMARIA", none⟩ }

/-- A failed outcome. -/
def errorOutcome : FileOutcome :=
  { estado := "error", nuevo_nombre := none, mensaje := some "No se pudo leer", metadata := none }

/-- A server that answers every batch with status 200, zero counts and no
outcomes. -/
def envEmptyAnswer : Env :=
  ⟨fun _ => FetchResult.response 200 (Body.json ⟨none, some 0, some 0, some []⟩), "TypeError"⟩

/-- A server that answers every batch with status 200 and the counts, but
without `resultados`. -/
def envNoResultados : Env :=
  ⟨fun _ => FetchResult.response 200 (Body.json ⟨none, some 3, some 1, none⟩),
    "resultados is undefined"⟩

/-- A server that answers every batch with status 200 and one outcome, but
without the counts. -/
def envNoCounts : Env :=
  ⟨fun _ => FetchResult.response 200 (Body.json ⟨none, none, none, some [okOutcome]⟩),
    "TypeError"⟩

/-- A server that answers status 500 with a JSON body carrying `detail`. -/
def envOverloaded : Env :=
  ⟨fun _ => FetchResult.response 500 (Body.json ⟨some "server overloaded", none, none, none⟩),
    "TypeError"⟩

/-- A server that answers status 500 with a body that is not JSON. -/
def envBadGateway : Env :=
  ⟨fun _ => FetchResult.response 502 (Body.unparseable "Unexpected end of JSON input"),
    "TypeError"⟩

/-- A server that answers status 500 with a JSON body whose `detail` is empty. -/
def envEmptyDetail : Env :=
  ⟨fun _ => FetchResult.response 500 (Body.json ⟨some "", none, none, none⟩), "TypeError"⟩

/-- A server that answers the first batch well (9 successes, 1 failure, ten
outcomes) and every later batch with status 500 and a `detail`. -/
def envSecondFails : Env :=
  ⟨fun k =>
    if k = 0 then
      FetchResult.response 200 (Body.json
        ⟨none, some 9, some 1, some (List.replicate 9 okOutcome ++ [errorOutcome])⟩)
    else FetchResult.response 500 (Body.json ⟨some "server overloaded", none, none, none⟩),
    "TypeError"⟩

/-- A server that answers every batch of `files` with one successful outcome per
file. -/
def envAllOk (files : List FileHandle) : Env :=
  ⟨fun k =>
    FetchResult.response 200 (Body.json
      ⟨none, some (batchAt files k).length, some 0,
        some (List.replicate (batchAt files k).length okOutcome)⟩),
    "TypeError"⟩

/-! ## Lemmas -/

theorem filterPdf_foldl (files acc : List FileHandle) :
    files.foldl
      (fun pdfFiles f => if endsWith (toLowerCase f.name) ".pdf" then pdfFiles ++ [f] else pdfFiles)
      acc = acc ++ files.filter isPdf := by
  induction files generalizing acc with
  | nil => simp
  | cons f t ih =>
    simp only [List.foldl_cons, ih, List.filter_cons, isPdf]
    by_cases h : endsWith (toLowerCase f.name) ".pdf" = true
    · simp [h]
    · simp [h]

/-- The push loop computes the filter by `isPdf`. -/
theorem filterPdf_eq_filter (files : List FileHandle) :
    filterPdf files = files.filter isPdf := by
  simp [filterPdf, filterPdf_foldl]

theorem orElse_some_nonempty (n : String) (b : Option String) (h : n ≠ "") :
    orElse (some n) b = some n := by
  simp [orElse, truthy, h]

theorem orElse_none (b : Option String) : orElse none b = b := by
  simp [orElse, truthy]

theorem orElse_empty (b : Option String) : orElse (some "") b = b := by
  simp [orElse, truthy]

theorem foldl_push_rows (rs : List FileOutcome) (rows : List Row) :
    rs.foldl (fun rows res => rows ++ [renderRow res]) rows = rows ++ rs.map renderRow := by
  induction rs generalizing rows with
  | nil => simp
  | cons r t ih => simp [ih]

theorem appendResults_some (env : Env) (rs : List FileOutcome) (exitosos fallidos : JSNumber)
    (s : RunState) :
    appendResults env (some rs) exitosos fallidos s =
      ({ s with page := { s.page with
            statSuccess := exitosos.toStr ++ " Éxitos",
            statFail := fallidos.toStr ++ " Errores",
            resultsBody := s.page.resultsBody ++ rs.map renderRow } }, none) := by
  simp [appendResults, foldl_push_rows]

/-- An iteration whose `try` block throws before line 107: only the progress
update, the request, `console.error` and the alert happen. -/
theorem batchStep_earlyThrow (env : Env) (pdfFiles : List FileHandle) (i : Nat) (s : RunState)
    (m : String) (h : earlyThrow (env.fetch s.fetchCalls) = some m) :
    batchStep env pdfFiles i s =
      { beforeTry pdfFiles i s with
        fetchCalls := s.fetchCalls + 1,
        trace := (beforeTry pdfFiles i s).trace ++
          [Event.fetch (slice pdfFiles i (i + batchSize)), Event.consoleError m,
           Event.alert ("Error en lote: " ++ m)] } := by
  have hk : (beforeTry pdfFiles i s).fetchCalls = s.fetchCalls := rfl
  unfold batchStep tryBlock
  simp only []
  rw [show (updateProgress (roundPercent i pdfFiles.length)
    (some (batchLabel i (i + (slice pdfFiles i (i + batchSize)).length) pdfFiles.length)) s)
      = beforeTry pdfFiles i s from rfl, hk]
  cases hf : env.fetch s.fetchCalls with
  | networkError message =>
    rw [hf] at h
    simp only [earlyThrow, Option.some.injEq] at h
    subst h
    simp
  | response status body =>
    rw [hf] at h
    cases body with
    | unparseable message =>
      simp only [earlyThrow, Option.some.injEq] at h
      subst h
      by_cases hok : responseOk status = true <;> simp [hok]
    | json o =>
      simp only [earlyThrow] at h
      by_cases hok : responseOk status = true
      · simp [hok] at h
      · simp only [hok, if_false, Option.some.injEq, Bool.false_eq_true] at h
        subst h
        simp [hok, genericMessage]

/-- An iteration answered with a success status and a body carrying
`resultados`: the `try` block runs to its end. -/
theorem batchStep_json_ok (env : Env) (pdfFiles : List FileHandle) (i : Nat) (s : RunState)
    (status : Nat) (data : ResponseObject) (rs : List FileOutcome)
    (h : env.fetch s.fetchCalls = FetchResult.response status (Body.json data))
    (hok : responseOk status = true) (hrs : data.resultados = some rs) :
    batchStep env pdfFiles i s =
      updateProgress (roundPercent (i + (slice pdfFiles i (i + batchSize)).length) pdfFiles.length)
        none
        { exitososTotal := s.exitososTotal.add data.exitosos,
          fallidosTotal := s.fallidosTotal.add data.fallidos,
          fetchCalls := s.fetchCalls + 1,
          page := { (beforeTry pdfFiles i s).page with
            statSuccess := (s.exitososTotal.add data.exitosos).toStr ++ " Éxitos",
            statFail := (s.fallidosTotal.add data.fallidos).toStr ++ " Errores",
            resultsBody := s.page.resultsBody ++ rs.map renderRow },
          trace := (beforeTry pdfFiles i s).trace ++
            [Event.fetch (slice pdfFiles i (i + batchSize))] } := by
  have hk : (beforeTry pdfFiles i s).fetchCalls = s.fetchCalls := rfl
  unfold batchStep tryBlock
  simp only []
  rw [show (updateProgress (roundPercent i pdfFiles.length)
    (some (batchLabel i (i + (slice pdfFiles i (i + batchSize)).length) pdfFiles.length)) s)
      = beforeTry pdfFiles i s from rfl, hk, h]
  simp only [hok, hrs, appendResults_some]
  simp [beforeTry, updateProgress]
  split <;> rfl

/-- An iteration answered with a success status and a body without
`resultados`: the counts are added and shown, then `forEach` throws. -/
theorem batchStep_json_noResultados (env : Env) (pdfFiles : List FileHandle) (i : Nat)
    (s : RunState) (status : Nat) (data : ResponseObject)
    (h : env.fetch s.fetchCalls = FetchResult.response status (Body.json data))
    (hok : responseOk status = true) (hrs : data.resultados = none) :
    batchStep env pdfFiles i s =
      { exitososTotal := s.exitososTotal.add data.exitosos,
        fallidosTotal := s.fallidosTotal.add data.fallidos,
        fetchCalls := s.fetchCalls + 1,
        page := { (beforeTry pdfFiles i s).page with
          statSuccess := (s.exitososTotal.add data.exitosos).toStr ++ " Éxitos",
          statFail := (s.fallidosTotal.add data.fallidos).toStr ++ " Errores" },
        trace := (beforeTry pdfFiles i s).trace ++
          [Event.fetch (slice pdfFiles i (i + batchSize)),
           Event.consoleError env.typeErrorMessage,
           Event.alert ("Error en lote: " ++ env.typeErrorMessage)] } := by
  have hk : (beforeTry pdfFiles i s).fetchCalls = s.fetchCalls := rfl
  unfold batchStep tryBlock
  simp only []
  rw [show (updateProgress (roundPercent i pdfFiles.length)
    (some (batchLabel i (i + (slice pdfFiles i (i + batchSize)).length) pdfFiles.length)) s)
      = beforeTry pdfFiles i s from rfl, hk, h]
  simp only [hok, hrs, appendResults]
  simp [beforeTry, updateProgress]

theorem lt_batchCount_iff (n j : Nat) : j < batchCount n ↔ 10 * j < n := by
  unfold batchCount; omega

/-- From offset `10 * j` on, with enough iterations left, the loop ends in the
state reached after all batches. -/
theorem uploadLoop_from (env : Env) (pdfFiles : List FileHandle) (s : RunState) :
    ∀ (fuel j : Nat), j ≤ batchCount pdfFiles.length →
      batchCount pdfFiles.length - j ≤ fuel →
      uploadLoop env pdfFiles fuel (batchSize * j) (afterBatches env pdfFiles s j) =
        some (afterBatches env pdfFiles s (batchCount pdfFiles.length)) := by
  intro fuel
  induction fuel with
  | zero =>
    intro j hj hfuel
    have hjk : j = batchCount pdfFiles.length := by omega
    have hnot : ¬ batchSize * j < pdfFiles.length := by
      have := (lt_batchCount_iff pdfFiles.length j).not.mp (by omega)
      simpa [batchSize] using this
    simp only [uploadLoop, hnot, if_false]
    rw [hjk]
  | succ fuel ih =>
    intro j hj hfuel
    by_cases hlt : j < batchCount pdfFiles.length
    · have hcond : batchSize * j < pdfFiles.length := by
        have := (lt_batchCount_iff pdfFiles.length j).mp hlt
        simpa [batchSize] using this
      simp only [uploadLoop, hcond, if_true]
      have hnext : batchSize * j + batchSize = batchSize * (j + 1) := by ring
      rw [hnext]
      exact ih (j + 1) hlt (by omega)
    · have hjk : j = batchCount pdfFiles.length := by omega
      have hnot : ¬ batchSize * j < pdfFiles.length := by
        have := (lt_batchCount_iff pdfFiles.length j).not.mp hlt
        simpa [batchSize] using this
      simp only [uploadLoop, hnot, if_false]
      rw [hjk]

theorem batchCount_le (n : Nat) : batchCount n ≤ n := by
  unfold batchCount; omega

/-- With `totalFiles` iterations allowed the loop returns, and what it returns
is the state after `⌈N / 10⌉` batch steps. -/
theorem uploadLoop_eq (env : Env) (pdfFiles : List FileHandle) (s : RunState) :
    uploadLoop env pdfFiles pdfFiles.length 0 s =
      some (afterBatches env pdfFiles s (batchCount pdfFiles.length)) := by
  have h := uploadLoop_from env pdfFiles s pdfFiles.length 0 (Nat.zero_le _)
    (by have := batchCount_le pdfFiles.length; omega)
  simpa [afterBatches] using h

/-- A call with at least one eligible file resets the page, runs every batch
step and finishes with the update to 100. -/
theorem handleFiles_eq (env : Env) (files : List FileHandle) (page : Page)
    (h : filterPdf files ≠ []) :
    handleFiles env files page =
      some (finish (afterBatches env (filterPdf files) (initialState page)
        (batchCount (filterPdf files).length))) := by
  have hf : files ≠ [] := by
    rintro rfl
    exact h rfl
  have h1 : files.length ≠ 0 := by simpa using hf
  have h2 : (filterPdf files).length ≠ 0 := by simpa using h
  unfold handleFiles
  simp only [h1, h2, if_false]
  rw [uploadLoop_eq]
  rfl

theorem requests_append (a b : List Event) : requests (a ++ b) = requests a ++ requests b := by
  induction a with
  | nil => rfl
  | cons e t ih => cases e <;> simp [requests, ih]

theorem percents_append (a b : List Event) : percents (a ++ b) = percents a ++ percents b := by
  induction a with
  | nil => rfl
  | cons e t ih => cases e <;> simp [percents, ih]

theorem alerts_append (a b : List Event) : alerts (a ++ b) = alerts a ++ alerts b := by
  induction a with
  | nil => rfl
  | cons e t ih => cases e <;> simp [alerts, ih]

theorem fetch_cases (r : FetchResult) :
    (∃ m, earlyThrow r = some m ∧ completes r = false) ∨
    (∃ status data, r = FetchResult.response status (Body.json data) ∧ responseOk status = true) := by
  cases r with
  | networkError message => exact Or.inl ⟨message, rfl, rfl⟩
  | response status body =>
    cases body with
    | unparseable message => exact Or.inl ⟨message, rfl, rfl⟩
    | json o =>
      by_cases hok : responseOk status = true
      · exact Or.inr ⟨status, o, rfl, hok⟩
      · refine Or.inl ⟨strToString (orElse o.detail (some genericMessage)), ?_, ?_⟩
        · simp [earlyThrow, hok]
        · simp [completes, hok]

theorem slice_length (pdfFiles : List FileHandle) (i : Nat) :
    i + (slice pdfFiles i (i + batchSize)).length = max i (min (i + batchSize) pdfFiles.length) := by
  simp only [slice, List.length_drop, List.length_take]
  omega

theorem beforeTry_trace (pdfFiles : List FileHandle) (i : Nat) (s : RunState) :
    (beforeTry pdfFiles i s).trace = s.trace ++
      [Event.updateProgress (roundPercent i pdfFiles.length)
        (some (batchLabel i (i + (slice pdfFiles i (i + batchSize)).length) pdfFiles.length))] := rfl

theorem batchStep_fetchCalls (env : Env) (pdfFiles : List FileHandle) (i : Nat) (s : RunState) :
    (batchStep env pdfFiles i s).fetchCalls = s.fetchCalls + 1 := by
  rcases fetch_cases (env.fetch s.fetchCalls) with ⟨m, hm, _⟩ | ⟨status, data, hr, hok⟩
  · rw [batchStep_earlyThrow env pdfFiles i s m hm]
  · cases hrs : data.resultados with
    | none => rw [batchStep_json_noResultados env pdfFiles i s status data hr hok hrs]
    | some rs => rw [batchStep_json_ok env pdfFiles i s status data rs hr hok hrs]; rfl

/-- The trace of one iteration: the progress update, the request, and a tail
without requests whose only possible progress update is the one of line 111. -/
theorem batchStep_trace (env : Env) (pdfFiles : List FileHandle) (i : Nat) (s : RunState) :
    ∃ tail, (batchStep env pdfFiles i s).trace = s.trace ++
        [Event.updateProgress (roundPercent i pdfFiles.length)
          (some (batchLabel i (i + (slice pdfFiles i (i + batchSize)).length) pdfFiles.length)),
         Event.fetch (slice pdfFiles i (i + batchSize))] ++ tail ∧
      requests tail = [] ∧
      percents tail = (if completes (env.fetch s.fetchCalls)
        then [roundPercent (i + (slice pdfFiles i (i + batchSize)).length) pdfFiles.length]
        else []) := by
  rcases fetch_cases (env.fetch s.fetchCalls) with ⟨m, hm, hc⟩ | ⟨status, data, hr, hok⟩
  · refine ⟨[Event.consoleError m, Event.alert ("Error en lote: " ++ m)], ?_, rfl, ?_⟩
    · rw [batchStep_earlyThrow env pdfFiles i s m hm]
      simp [beforeTry_trace]
    · simp [hc, percents]
  · cases hrs : data.resultados with
    | none =>
      refine ⟨[Event.consoleError env.typeErrorMessage,
        Event.alert ("Error en lote: " ++ env.typeErrorMessage)], ?_, rfl, ?_⟩
      · rw [batchStep_json_noResultados env pdfFiles i s status data hr hok hrs]
        simp [beforeTry_trace]
      · simp [hr, completes, hrs, percents]
    | some rs =>
      refine ⟨[Event.updateProgress
        (roundPercent (i + (slice pdfFiles i (i + batchSize)).length) pdfFiles.length) none],
        ?_, rfl, ?_⟩
      · rw [batchStep_json_ok env pdfFiles i s status data rs hr hok hrs]
        simp [updateProgress, beforeTry_trace]
      · simp [hr, completes, hrs, hok, percents]

theorem afterBatches_fetchCalls (env : Env) (pdfFiles : List FileHandle) (s : RunState) (j : Nat) :
    (afterBatches env pdfFiles s j).fetchCalls = s.fetchCalls + j := by
  induction j with
  | zero => rfl
  | succ j ih => simp only [afterBatches, batchStep_fetchCalls, ih]; omega

/-- The payloads submitted by the first `j` iterations. -/
theorem afterBatches_requests (env : Env) (pdfFiles : List FileHandle) (s : RunState) (j : Nat) :
    requests (afterBatches env pdfFiles s j).trace =
      requests s.trace ++ (List.range j).map (batchAt pdfFiles) := by
  induction j with
  | zero => simp [afterBatches]
  | succ j ih =>
    obtain ⟨tail, ht, hreq, _⟩ :=
      batchStep_trace env pdfFiles (batchSize * j) (afterBatches env pdfFiles s j)
    simp only [afterBatches, ht, requests_append, ih, hreq, List.range_succ, List.map_append]
    simp [requests, batchAt]

/-- The percent values emitted by the first `j` iterations. -/
theorem afterBatches_percents (env : Env) (pdfFiles : List FileHandle) (s : RunState)
    (hs : s.fetchCalls = 0) (j : Nat) (hj : j ≤ batchCount pdfFiles.length) :
    percents (afterBatches env pdfFiles s j).trace =
      percents s.trace ++ (List.range j).flatMap (stepPercents env pdfFiles.length) := by
  induction j with
  | zero => simp [afterBatches]
  | succ j ih =>
    obtain ⟨tail, ht, _, hper⟩ :=
      batchStep_trace env pdfFiles (batchSize * j) (afterBatches env pdfFiles s j)
    have hlt : 10 * j < pdfFiles.length := (lt_batchCount_iff _ _).mp hj
    have hlen := slice_length pdfFiles (batchSize * j)
    have hcur : batchSize * j + (slice pdfFiles (batchSize * j) (batchSize * j + batchSize)).length
        = min (batchSize * j + batchSize) pdfFiles.length := by
      rw [hlen]; simp only [batchSize]; omega
    rw [afterBatches_fetchCalls, hs, Nat.zero_add, hcur] at hper
    simp only [afterBatches, ht, percents_append, ih (by omega), hper, List.range_succ,
      List.flatMap_append]
    simp [percents, stepPercents]

/-- The number of iterations is `⌈n / 10⌉`. -/
theorem batchCount_eq_ceil (n : Nat) : batchCount n = ⌈(n : ℚ) / 10⌉₊ := by
  symm
  apply le_antisymm
  · rw [Nat.ceil_le, div_le_iff₀ (by norm_num)]
    have h : n ≤ batchCount n * 10 := by unfold batchCount; omega
    exact_mod_cast h
  · have h : ∀ c : Nat, (n : ℚ) / 10 ≤ c → batchCount n ≤ c := by
      intro c hc
      rw [div_le_iff₀ (by norm_num)] at hc
      have hc' : n ≤ c * 10 := by exact_mod_cast hc
      unfold batchCount; omega
    exact h _ (Nat.le_ceil _)

theorem batchAt_eq (pdfFiles : List FileHandle) (m : Nat) :
    batchAt pdfFiles m = (pdfFiles.drop (10 * m)).take 10 := by
  simp only [batchAt, slice, batchSize]
  rw [List.take_drop, Nat.add_comm]

theorem batchAt_length (pdfFiles : List FileHandle) (m : Nat) :
    (batchAt pdfFiles m).length = min (10 * m + 10) pdfFiles.length - 10 * m := by
  simp only [batchAt, slice, batchSize, List.length_drop, List.length_take]

/-- The first `j` batches concatenate to the first `10 * j` files. -/
theorem batches_flatten (pdfFiles : List FileHandle) (j : Nat) :
    ((List.range j).map (batchAt pdfFiles)).flatten = pdfFiles.take (10 * j) := by
  induction j with
  | zero => simp
  | succ j ih =>
    rw [List.range_succ, List.map_append, List.flatten_append, ih]
    simp only [List.map_cons, List.map_nil, List.flatten_cons, List.flatten_nil, List.append_nil,
      batchAt_eq]
    rw [show 10 * (j + 1) = 10 * j + 10 by ring, List.take_add]

theorem uptoLastFetch_of_no_requests (t : List Event) (h : requests t = []) :
    uptoLastFetch t = [] := by
  induction t with
  | nil => rfl
  | cons e t ih =>
    cases e with
    | fetch files => simp [requests] at h
    | alert text => simp only [requests] at h; simp [uptoLastFetch, ih h]
    | consoleError m => simp only [requests] at h; simp [uptoLastFetch, ih h]
    | updateProgress p x => simp only [requests] at h; simp [uptoLastFetch, ih h]

theorem uptoLastFetch_cons (e : Event) (t : List Event) (h : uptoLastFetch t ≠ []) :
    uptoLastFetch (e :: t) = e :: uptoLastFetch t := by
  cases ht : uptoLastFetch t with
  | nil => exact absurd ht h
  | cons e' t' => simp [uptoLastFetch, ht]

/-- A trace cut after a request that is followed by no other request. -/
theorem uptoLastFetch_split (a : List Event) (files : List FileHandle) (c : List Event)
    (h : requests c = []) :
    uptoLastFetch (a ++ Event.fetch files :: c) = a ++ [Event.fetch files] := by
  induction a with
  | nil => simp [uptoLastFetch, uptoLastFetch_of_no_requests c h]
  | cons e t ih =>
    rw [List.cons_append, uptoLastFetch_cons _ _ (by rw [ih]; simp), ih]
    rfl

theorem log2Aux_spec : ∀ (fuel n : Nat), n ≤ fuel → 0 < n →
    2 ^ log2Aux fuel n ≤ n ∧ n < 2 ^ (log2Aux fuel n + 1) := by
  intro fuel
  induction fuel with
  | zero => intro n h1 h2; omega
  | succ fuel ih =>
    intro n hle hpos
    by_cases h2 : 2 ≤ n
    · have hrec := ih (n / 2) (by omega) (by omega)
      simp only [log2Aux, h2, if_true]
      obtain ⟨hlo, hhi⟩ := hrec
      constructor
      · rw [pow_succ]; omega
      · rw [pow_succ]; omega
    · simp only [log2Aux, h2, if_false]
      constructor <;> simp <;> omega

theorem floorLog2_spec (n : Nat) (h : 0 < n) :
    2 ^ floorLog2 n ≤ n ∧ n < 2 ^ (floorLog2 n + 1) :=
  log2Aux_spec n n (Nat.le_refl n) h

theorem rheQ_floor_le (t : ℚ) : ⌊t⌋ ≤ rheQ t := by
  unfold rheQ; split_ifs <;> omega

theorem rheQ_le_floor_succ (t : ℚ) : rheQ t ≤ ⌊t⌋ + 1 := by
  unfold rheQ; split_ifs <;> omega

theorem rheQ_mono {s t : ℚ} (h : s ≤ t) : rheQ s ≤ rheQ t := by
  have hf : ⌊s⌋ ≤ ⌊t⌋ := Int.floor_mono h
  rcases lt_or_eq_of_le hf with hlt | heq
  · calc rheQ s ≤ ⌊s⌋ + 1 := rheQ_le_floor_succ s
      _ ≤ ⌊t⌋ := hlt
      _ ≤ rheQ t := rheQ_floor_le t
  · have hfr : s - ⌊s⌋ ≤ t - ⌊t⌋ := by rw [heq]; linarith
    unfold rheQ
    rw [heq]
    rw [heq] at hfr
    split_ifs <;> first | omega | linarith

theorem rheQ_intCast (z : ℤ) : rheQ (z : ℚ) = z := by
  unfold rheQ
  simp

theorem rheQ_of_parts (q r d : Nat) (hd : 0 < d) (hr : r < d) :
    rheQ ((q : ℚ) + (r : ℚ) / d) =
      if 2 * r < d then (q : ℤ) else if d < 2 * r then (q : ℤ) + 1
      else if q % 2 = 0 then (q : ℤ) else (q : ℤ) + 1 := by
  have hdq : (0 : ℚ) < d := by exact_mod_cast hd
  have hfrac0 : (0 : ℚ) ≤ (r : ℚ) / d := by positivity
  have hfrac1 : (r : ℚ) / d < 1 := by
    rw [div_lt_one hdq]; exact_mod_cast hr
  have hfloor : ⌊(q : ℚ) + (r : ℚ) / d⌋ = (q : ℤ) := by
    rw [Int.floor_eq_iff]
    constructor
    · push_cast; linarith
    · push_cast; linarith
  have hlt : (r : ℚ) / d < 1 / 2 ↔ 2 * r < d := by
    rw [div_lt_iff₀ hdq]
    constructor
    · intro h
      have : (2 : ℚ) * r < d := by linarith
      exact_mod_cast this
    · intro h
      have : (2 : ℚ) * r < d := by exact_mod_cast h
      linarith
  have hgt : 1 / 2 < (r : ℚ) / d ↔ d < 2 * r := by
    rw [lt_div_iff₀ hdq]
    constructor
    · intro h
      have : (d : ℚ) < 2 * r := by linarith
      exact_mod_cast this
    · intro h
      have : (d : ℚ) < 2 * r := by exact_mod_cast h
      linarith
  have hpar : (q : ℤ) % 2 = 0 ↔ q % 2 = 0 := by omega
  unfold rheQ
  rw [hfloor]
  have hsub : (q : ℚ) + (r : ℚ) / d - ((q : ℤ) : ℚ) = (r : ℚ) / d := by
    push_cast; ring
  rw [hsub]
  simp only [hlt, hgt, hpar]

theorem roundHalfEven_eq (n d : Nat) (hd : 0 < d) :
    (roundHalfEven n d : ℤ) = rheQ ((n : ℚ) / d) := by
  have hdq : (0 : ℚ) < d := by exact_mod_cast hd
  have hn : (n : ℚ) = (d : ℚ) * (n / d : ℕ) + (n % d : ℕ) := by
    exact_mod_cast (Nat.div_add_mod n d).symm
  have hdiv : (n : ℚ) / d = ((n / d : ℕ) : ℚ) + ((n % d : ℕ) : ℚ) / d := by
    rw [eq_comm, ← sub_eq_zero]
    field_simp
    linarith
  rw [hdiv, rheQ_of_parts _ _ d hd (Nat.mod_lt n hd)]
  unfold roundHalfEven
  split_ifs <;> simp

theorem toDouble_den_pos (a b : Nat) : 0 < (toDouble a b).den := by
  unfold toDouble
  split
  · exact Nat.one_pos
  · exact Nat.two_pow_pos _

theorem toDouble_zero (b : Nat) : toDouble 0 b = ⟨0, 1⟩ := by
  simp [toDouble]

theorem toDouble_spec (a b : Nat) (ha : 0 < a) (hb : 0 < b) :
    ∃ E : ℤ, (2 : ℚ) ^ E ≤ (a : ℚ) / b ∧ (a : ℚ) / b < 2 ^ (E + 1) ∧
      (toDouble a b).val = rheQ ((a : ℚ) / b * 2 ^ (52 - E)) * 2 ^ (E - 52) := by
  obtain ⟨hla, hla'⟩ := floorLog2_spec a ha
  obtain ⟨hlb, hlb'⟩ := floorLog2_spec b hb
  have hbq : (0 : ℚ) < b := by exact_mod_cast hb
  have h2 : (0 : ℚ) < 2 := by norm_num
  have h2ne : (2 : ℚ) ≠ 0 := by norm_num
  have hzsub : ∀ m n : Nat, (2 : ℚ) ^ ((m : ℤ) - (n : ℤ)) = (2 : ℚ) ^ m / 2 ^ n := by
    intro m n
    rw [zpow_sub₀ h2ne, zpow_natCast, zpow_natCast]
  have hpowpos : ∀ n : Nat, (0 : ℚ) < 2 ^ n := fun n => by positivity
  -- the value computed, for either adjustment
  have hval : ∀ adj : Nat,
      (⟨roundHalfEven (a * 2 ^ (52 + floorLog2 b + adj - floorLog2 a))
          (b * 2 ^ (floorLog2 a - (52 + floorLog2 b + adj))) *
          2 ^ (floorLog2 a - (52 + floorLog2 b + adj)),
        2 ^ (52 + floorLog2 b + adj - floorLog2 a)⟩ : Fraction).val =
      rheQ ((a : ℚ) / b * 2 ^ (52 - ((floorLog2 a : ℤ) - floorLog2 b - adj))) *
        2 ^ (((floorLog2 a : ℤ) - floorLog2 b - adj) - 52) := by
    intro adj
    have hdpos : 0 < b * 2 ^ (floorLog2 a - (52 + floorLog2 b + adj)) :=
      Nat.mul_pos hb (Nat.two_pow_pos _)
    have hexp1 : (52 : ℤ) - ((floorLog2 a : ℤ) - floorLog2 b - adj) =
        ((52 + floorLog2 b + adj - floorLog2 a : ℕ) : ℤ) -
          ((floorLog2 a - (52 + floorLog2 b + adj) : ℕ) : ℤ) := by omega
    have hexp2 : ((floorLog2 a : ℤ) - floorLog2 b - adj) - 52 =
        ((floorLog2 a - (52 + floorLog2 b + adj) : ℕ) : ℤ) -
          ((52 + floorLog2 b + adj - floorLog2 a : ℕ) : ℤ) := by omega
    rw [hexp1, hexp2, hzsub, hzsub]
    have hr := roundHalfEven_eq (a * 2 ^ (52 + floorLog2 b + adj - floorLog2 a))
      (b * 2 ^ (floorLog2 a - (52 + floorLog2 b + adj))) hdpos
    have harg : (a : ℚ) / b * (2 ^ (52 + floorLog2 b + adj - floorLog2 a) /
        2 ^ (floorLog2 a - (52 + floorLog2 b + adj))) =
        ((a * 2 ^ (52 + floorLog2 b + adj - floorLog2 a) : ℕ) : ℚ) /
          ((b * 2 ^ (floorLog2 a - (52 + floorLog2 b + adj)) : ℕ) : ℚ) := by
      push_cast
      field_simp
    rw [harg, ← hr]
    simp only [Fraction.val]
    push_cast
    field_simp
  by_cases hadj : b * 2 ^ floorLog2 a ≤ a * 2 ^ floorLog2 b
  · refine ⟨(floorLog2 a : ℤ) - floorLog2 b - (0 : ℕ), ?_, ?_, ?_⟩
    · have : (floorLog2 a : ℤ) - floorLog2 b - ((0 : ℕ) : ℤ) = (floorLog2 a : ℤ) - floorLog2 b := by
        simp
      rw [this, hzsub, div_le_div_iff₀ (hpowpos _) hbq]
      exact_mod_cast (by rw [Nat.mul_comm] at hadj; exact hadj : 2 ^ floorLog2 a * b ≤ a * 2 ^ floorLog2 b)
    · have : (floorLog2 a : ℤ) - floorLog2 b - ((0 : ℕ) : ℤ) + 1 =
          ((floorLog2 a + 1 : ℕ) : ℤ) - floorLog2 b := by push_cast; ring
      rw [this, hzsub, div_lt_div_iff₀ hbq (hpowpos _)]
      have h1 : a * 2 ^ floorLog2 b < 2 ^ (floorLog2 a + 1) * b :=
        calc a * 2 ^ floorLog2 b < 2 ^ (floorLog2 a + 1) * 2 ^ floorLog2 b :=
              Nat.mul_lt_mul_of_pos_right hla' (Nat.two_pow_pos _)
          _ ≤ 2 ^ (floorLog2 a + 1) * b := Nat.mul_le_mul_left _ hlb
      exact_mod_cast h1
    · have := hval 0
      simp only [toDouble, Nat.ne_of_gt ha, if_false, hadj, if_true]
      exact this
  · refine ⟨(floorLog2 a : ℤ) - floorLog2 b - (1 : ℕ), ?_, ?_, ?_⟩
    · have : (floorLog2 a : ℤ) - floorLog2 b - ((1 : ℕ) : ℤ) =
          (floorLog2 a : ℤ) - ((floorLog2 b + 1 : ℕ) : ℤ) := by push_cast; ring
      rw [this, hzsub, div_le_div_iff₀ (hpowpos _) hbq]
      have h1 : 2 ^ floorLog2 a * b ≤ a * 2 ^ (floorLog2 b + 1) :=
        calc 2 ^ floorLog2 a * b ≤ a * b := Nat.mul_le_mul_right _ hla
          _ ≤ a * 2 ^ (floorLog2 b + 1) := Nat.mul_le_mul_left _ (Nat.le_of_lt hlb')
      exact_mod_cast h1
    · have : (floorLog2 a : ℤ) - floorLog2 b - ((1 : ℕ) : ℤ) + 1 =
          (floorLog2 a : ℤ) - floorLog2 b := by push_cast; ring
      rw [this, hzsub, div_lt_div_iff₀ hbq (hpowpos _)]
      have h1 : a * 2 ^ floorLog2 b < 2 ^ floorLog2 a * b := by
        rw [Nat.mul_comm (2 ^ floorLog2 a) b]; omega
      exact_mod_cast h1
    · have := hval 1
      simp only [toDouble, Nat.ne_of_gt ha, if_false, hadj]
      exact this

theorem toDouble_val_nonneg (a b : Nat) : 0 ≤ (toDouble a b).val := by
  unfold Fraction.val; positivity

theorem toDouble_mono (a b a' b' : Nat) (hb : 0 < b) (hb' : 0 < b')
    (h : (a : ℚ) / b ≤ (a' : ℚ) / b') :
    (toDouble a b).val ≤ (toDouble a' b').val := by
  have hbq : (0 : ℚ) < b := by exact_mod_cast hb
  have hbq' : (0 : ℚ) < b' := by exact_mod_cast hb'
  by_cases ha : a = 0
  · subst ha
    rw [toDouble_zero]
    simpa [Fraction.val] using toDouble_val_nonneg a' b'
  · have hapos : 0 < a := Nat.pos_of_ne_zero ha
    have hxpos : (0 : ℚ) < (a : ℚ) / b := div_pos (by exact_mod_cast hapos) hbq
    have hapos' : 0 < a' := by
      rcases Nat.eq_zero_or_pos a' with h0 | h0
      · subst h0
        simp at h
        linarith
      · exact h0
    obtain ⟨E, hlo, hhi, hv⟩ := toDouble_spec a b hapos hb
    obtain ⟨E', hlo', hhi', hv'⟩ := toDouble_spec a' b' hapos' hb'
    have h1lt2 : (1 : ℚ) < 2 := by norm_num
    have h2ne : (2 : ℚ) ≠ 0 := by norm_num
    have hEE : E ≤ E' := by
      have : (2 : ℚ) ^ E < 2 ^ (E' + 1) := lt_of_le_of_lt (le_trans hlo h) hhi'
      have := (zpow_lt_zpow_iff_right₀ h1lt2).mp this
      omega
    have hscale : ∀ z : ℤ, (0 : ℚ) < 2 ^ z := fun z => zpow_pos (by norm_num) z
    rw [hv, hv']
    rcases lt_or_eq_of_le hEE with hlt | heq
    · -- different binades
      have hm : rheQ ((a : ℚ) / b * 2 ^ (52 - E)) ≤ 2 ^ 53 := by
        have hle : (a : ℚ) / b * 2 ^ (52 - E) ≤ ((2 ^ 53 : ℤ) : ℚ) := by
          have : (a : ℚ) / b * 2 ^ (52 - E) ≤ 2 ^ (E + 1) * 2 ^ (52 - E) :=
            mul_le_mul_of_nonneg_right (le_of_lt hhi) (le_of_lt (hscale _))
          rw [← zpow_add₀ h2ne] at this
          have he : E + 1 + (52 - E) = (53 : ℕ) := by push_cast; ring
          rw [he, zpow_natCast] at this
          push_cast
          exact this
        have := rheQ_mono hle
        rwa [rheQ_intCast] at this
      have hm' : 2 ^ 52 ≤ rheQ ((a' : ℚ) / b' * 2 ^ (52 - E')) := by
        have hle : ((2 ^ 52 : ℤ) : ℚ) ≤ (a' : ℚ) / b' * 2 ^ (52 - E') := by
          have : (2 : ℚ) ^ E' * 2 ^ (52 - E') ≤ (a' : ℚ) / b' * 2 ^ (52 - E') :=
            mul_le_mul_of_nonneg_right hlo' (le_of_lt (hscale _))
          rw [← zpow_add₀ h2ne] at this
          have he : E' + (52 - E') = (52 : ℕ) := by push_cast; ring
          rw [he, zpow_natCast] at this
          push_cast
          exact this
        have := rheQ_mono hle
        rwa [rheQ_intCast] at this
      calc (rheQ ((a : ℚ) / b * 2 ^ (52 - E)) : ℚ) * 2 ^ (E - 52)
          ≤ ((2 ^ 53 : ℤ) : ℚ) * 2 ^ (E - 52) :=
            mul_le_mul_of_nonneg_right (by exact_mod_cast hm) (le_of_lt (hscale _))
        _ = 2 ^ (E + 1) := by
            have h53 : ((2 ^ 53 : ℤ) : ℚ) = (2 : ℚ) ^ (53 : ℤ) := by norm_num
            rw [h53, ← zpow_add₀ h2ne]
            congr 1
            ring
        _ ≤ 2 ^ E' := zpow_le_zpow_right₀ (le_of_lt h1lt2) (by omega)
        _ = ((2 ^ 52 : ℤ) : ℚ) * 2 ^ (E' - 52) := by
            have h52 : ((2 ^ 52 : ℤ) : ℚ) = (2 : ℚ) ^ (52 : ℤ) := by norm_num
            rw [h52, ← zpow_add₀ h2ne]
            congr 1
            ring
        _ ≤ (rheQ ((a' : ℚ) / b' * 2 ^ (52 - E')) : ℚ) * 2 ^ (E' - 52) :=
            mul_le_mul_of_nonneg_right (by exact_mod_cast hm') (le_of_lt (hscale _))
    · -- same binade
      subst heq
      apply mul_le_mul_of_nonneg_right _ (le_of_lt (hscale _))
      have : rheQ ((a : ℚ) / b * 2 ^ (52 - E)) ≤ rheQ ((a' : ℚ) / b' * 2 ^ (52 - E)) :=
        rheQ_mono (mul_le_mul_of_nonneg_right h (le_of_lt (hscale _)))
      exact_mod_cast this

theorem mathRound_eq (x : Fraction) (hd : 0 < x.den) : mathRound x = ⌊x.val + 1 / 2⌋₊ := by
  have hdq : (0 : ℚ) < x.den := by exact_mod_cast hd
  have : x.val + 1 / 2 = ((2 * x.num + x.den : ℕ) : ℚ) / ((2 * x.den : ℕ) : ℚ) := by
    simp only [Fraction.val]
    push_cast
    field_simp
    ring
  rw [this, Nat.floor_div_eq_div]
  rfl

/-- The rounded percent is monotone in the fraction it is computed from. -/
theorem roundPercent_mono_fraction (a b a' b' : Nat) (hb : 0 < b) (hb' : 0 < b')
    (h : a * b' ≤ a' * b) : roundPercent a b ≤ roundPercent a' b' := by
  have hbq : (0 : ℚ) < b := by exact_mod_cast hb
  have hbq' : (0 : ℚ) < b' := by exact_mod_cast hb'
  have hq : (a : ℚ) / b ≤ (a' : ℚ) / b' := by
    rw [div_le_div_iff₀ hbq hbq']
    exact_mod_cast h
  have h1 := toDouble_mono a b a' b' hb hb' hq
  have hd := toDouble_den_pos a b
  have hd' := toDouble_den_pos a' b'
  have h2 : (((toDouble a b).num * 100 : ℕ) : ℚ) / (toDouble a b).den ≤
      (((toDouble a' b').num * 100 : ℕ) : ℚ) / (toDouble a' b').den := by
    simp only [Fraction.val] at h1
    push_cast
    have := mul_le_mul_of_nonneg_right h1 (show (0 : ℚ) ≤ 100 by norm_num)
    calc ((toDouble a b).num : ℚ) * 100 / (toDouble a b).den
        = (toDouble a b).num / (toDouble a b).den * 100 := by ring
      _ ≤ (toDouble a' b').num / (toDouble a' b').den * 100 := this
      _ = ((toDouble a' b').num : ℚ) * 100 / (toDouble a' b').den := by ring
  have h3 := toDouble_mono _ _ _ _ hd hd' h2
  unfold roundPercent
  simp only []
  rw [mathRound_eq _ (toDouble_den_pos _ _), mathRound_eq _ (toDouble_den_pos _ _)]
  exact Nat.floor_mono (by linarith)

/-- The rounded percent is monotone in the number of processed files. -/
theorem roundPercent_mono (n : Nat) (hn : 0 < n) {i j : Nat} (h : i ≤ j) :
    roundPercent i n ≤ roundPercent j n :=
  roundPercent_mono_fraction i n j n hn hn (Nat.mul_le_mul_right n h)

/-- All files processed is 100 percent. -/
theorem roundPercent_self (n : Nat) (h : 0 < n) : roundPercent n n = 100 := by
  have h1 : roundPercent 1 1 = 100 := by decide
  apply le_antisymm
  · rw [← h1]; exact roundPercent_mono_fraction n n 1 1 h Nat.one_pos (by omega)
  · rw [← h1]; exact roundPercent_mono_fraction 1 1 n n Nat.one_pos h (by omega)

/-- Up to `2 ^ 32` files (a JavaScript array holds fewer), the rounded percent
stays below 100 exactly below 99.5 percent: the doubles `0.995` and
`0.995 - 1 / (200 * 2 ^ 32)` give 100 and 99, and the percent is monotone. -/
theorem roundPercent_lt_iff (i n : Nat) (h : 0 < n) (hn : n ≤ 4294967296) :
    roundPercent i n < 100 ↔ 200 * i < 199 * n := by
  constructor
  · intro hlt
    by_contra hge
    have hmono : roundPercent 199 200 ≤ roundPercent i n :=
      roundPercent_mono_fraction 199 200 i n (by norm_num) h (by omega)
    have hval : roundPercent 199 200 = 100 := by decide
    omega
  · intro hlt
    have hmono : roundPercent i n ≤ roundPercent 854698491903 858993459200 :=
      roundPercent_mono_fraction i n 854698491903 858993459200 h (by norm_num) (by omega)
    have hval : roundPercent 854698491903 858993459200 = 99 := by decide
    omega

theorem roundPercent_le (i n : Nat) (h : 0 < n) (hi : i ≤ n) : roundPercent i n ≤ 100 := by
  rw [← roundPercent_self n h]
  exact roundPercent_mono n h hi

/-- The percent values of the first `j` iterations are non-decreasing and each
is the rounding of a processed count of at most `min (10 * j) n`. -/
theorem stepPercents_sorted (env : Env) (n : Nat) (j : Nat) (hj : j ≤ batchCount n) :
    List.Sorted (· ≤ ·) ((List.range j).flatMap (stepPercents env n)) ∧
    ∀ p ∈ (List.range j).flatMap (stepPercents env n),
      ∃ x, x ≤ min (10 * j) n ∧ p = roundPercent x n := by
  induction j with
  | zero => simp
  | succ j ih =>
    obtain ⟨ihs, ihb⟩ := ih (by omega)
    have hjn : 10 * j < n := (lt_batchCount_iff n j).mp hj
    rw [List.range_succ, List.flatMap_append]
    have hstep : ∀ p ∈ stepPercents env n j,
        ∃ x, 10 * j ≤ x ∧ x ≤ min (10 * (j + 1)) n ∧ p = roundPercent x n := by
      intro p hp
      simp only [stepPercents, batchSize, List.mem_cons] at hp
      rcases hp with hp | hp
      · exact ⟨10 * j, by omega, by omega, hp⟩
      · split at hp
        · simp only [List.mem_singleton] at hp
          exact ⟨min (10 * j + 10) n, by omega, by omega, hp⟩
        · simp at hp
    have hstepSorted : List.Sorted (· ≤ ·) (stepPercents env n j) := by
      unfold stepPercents
      split
      · simp only [List.sorted_cons, List.mem_singleton, forall_eq, List.sorted_singleton,
          and_true, batchSize]
        refine ⟨?_, by simp, by simp⟩
        exact roundPercent_mono n (by omega) (by omega)
      · simp
    constructor
    · simp only [List.flatMap_cons, List.flatMap_nil, List.append_nil]
      rw [List.Sorted, List.pairwise_append]
      refine ⟨ihs, hstepSorted, ?_⟩
      intro a ha b hb
      obtain ⟨x, hx, rfl⟩ := ihb a ha
      obtain ⟨y, hy, _, rfl⟩ := hstep b hb
      exact roundPercent_mono n (by omega) (by omega)
    · intro p hp
      simp only [List.flatMap_cons, List.flatMap_nil, List.append_nil, List.mem_append] at hp
      rcases hp with hp | hp
      · obtain ⟨x, hx, rfl⟩ := ihb p hp
        exact ⟨x, by omega, rfl⟩
      · obtain ⟨y, _, hy, rfl⟩ := hstep p hp
        exact ⟨y, hy, rfl⟩

/-- The percent values emitted up to the submission of the last batch. -/
theorem percents_uptoLastFetch (env : Env) (files : List FileHandle) (page : Page)
    (h : filterPdf files ≠ []) :
    percents (uptoLastFetch (finish (afterBatches env (filterPdf files) (initialState page)
      (batchCount (filterPdf files).length))).trace) =
      (List.range (batchCount (filterPdf files).length - 1)).flatMap
        (stepPercents env (filterPdf files).length) ++
      [roundPercent (10 * (batchCount (filterPdf files).length - 1)) (filterPdf files).length] := by
  have hn : 0 < (filterPdf files).length := List.length_pos.mpr h
  obtain ⟨k, hk⟩ : ∃ k, batchCount (filterPdf files).length = k + 1 :=
    ⟨batchCount (filterPdf files).length - 1, by unfold batchCount; omega⟩
  rw [hk, Nat.add_sub_cancel]
  obtain ⟨tail, ht, hreq, _⟩ := batchStep_trace env (filterPdf files) (batchSize * k)
    (afterBatches env (filterPdf files) (initialState page) k)
  have hfin : (finish (afterBatches env (filterPdf files) (initialState page) (k + 1))).trace =
      ((afterBatches env (filterPdf files) (initialState page) k).trace ++
        [Event.updateProgress (roundPercent (batchSize * k) (filterPdf files).length)
          (some (batchLabel (batchSize * k) (batchSize * k +
            (slice (filterPdf files) (batchSize * k) (batchSize * k + batchSize)).length)
            (filterPdf files).length))]) ++
        Event.fetch (slice (filterPdf files) (batchSize * k) (batchSize * k + batchSize)) ::
          (tail ++ [Event.updateProgress 100 (some completionText)]) := by
    simp only [finish, updateProgress, afterBatches, ht]
    simp
  rw [hfin, uptoLastFetch_split _ _ _ (by simp [requests_append, hreq, requests])]
  have hper := afterBatches_percents env (filterPdf files) (initialState page) rfl k
    (by omega)
  simp only [percents_append, hper]
  simp [initialState, percents, batchSize]

theorem succeeded_succ (env : Env) (k : Nat) :
    succeeded env (k + 1) = succeeded env k ++ (batchData (env.fetch k)).toList := by
  simp only [succeeded, List.range_succ, List.filterMap_append]
  cases h : batchData (env.fetch k) <;> simp [List.filterMap, h]

theorem batchData_some (r : FetchResult) (d : BatchResponse) (h : batchData r = some d) :
    ∃ status data, r = FetchResult.response status (Body.json data) ∧ responseOk status = true ∧
      data.exitosos = some d.exitosos ∧ data.fallidos = some d.fallidos ∧
      data.resultados = some d.resultados := by
  cases r with
  | networkError m => simp [batchData] at h
  | response status body =>
    cases body with
    | unparseable m => simp [batchData] at h
    | json data =>
      obtain ⟨detail, e, f, rs⟩ := data
      by_cases hok : responseOk status = true
      · cases e <;> cases f <;> cases rs <;> simp only [batchData] at h <;>
          first
          | (simp only [hok, if_true, Option.some.injEq] at h
             subst h
             exact ⟨status, _, rfl, hok, rfl, rfl, rfl⟩)
          | cases h
      · cases e <;> cases f <;> cases rs <;> simp [batchData, hok] at h

theorem submissionFailed_earlyThrow (r : FetchResult) (h : submissionFailed r = true) :
    ∃ m, earlyThrow r = some m := by
  cases r with
  | networkError m => exact ⟨m, rfl⟩
  | response status body =>
    simp only [submissionFailed, Bool.not_eq_true'] at h
    cases body with
    | unparseable m => exact ⟨m, rfl⟩
    | json o =>
      exact ⟨strToString (orElse o.detail (some genericMessage)), by simp [earlyThrow, h]⟩

/-- What the accumulators, the table and the counters hold after `j` batches
when every batch so far was answered by a well-formed response or failed before
the accumulators were touched. -/
theorem afterBatches_summary (env : Env) (pdfFiles : List FileHandle) (page : Page) (j : Nat)
    (h : ∀ m, m < j → (batchData (env.fetch m)).isSome = true ∨
      (∃ msg, earlyThrow (env.fetch m) = some msg)) :
    (afterBatches env pdfFiles (initialState page) j).exitososTotal =
      JSNumber.int ((succeeded env j).map BatchResponse.exitosos).sum ∧
    (afterBatches env pdfFiles (initialState page) j).fallidosTotal =
      JSNumber.int ((succeeded env j).map BatchResponse.fallidos).sum ∧
    (afterBatches env pdfFiles (initialState page) j).page.resultsBody =
      (succeeded env j).flatMap (fun d => d.resultados.map renderRow) ∧
    (afterBatches env pdfFiles (initialState page) j).page.statSuccess =
      toString ((succeeded env j).map BatchResponse.exitosos).sum ++ " Éxitos" ∧
    (afterBatches env pdfFiles (initialState page) j).page.statFail =
      toString ((succeeded env j).map BatchResponse.fallidos).sum ++ " Errores" := by
  induction j with
  | zero => exact ⟨rfl, rfl, rfl, rfl, rfl⟩
  | succ j ih =>
    obtain ⟨h1, h2, h3, h4, h5⟩ := ih (fun m hm => h m (by omega))
    have hcalls : (afterBatches env pdfFiles (initialState page) j).fetchCalls = j := by
      rw [afterBatches_fetchCalls]; simp [initialState]
    cases hd : batchData (env.fetch j) with
    | some d =>
      obtain ⟨status, data, hr, hok, he, hf, hrs⟩ := batchData_some _ d hd
      rw [← hcalls] at hr
      simp only [afterBatches]
      rw [batchStep_json_ok env pdfFiles _ _ status data d.resultados hr hok hrs,
        succeeded_succ, hd]
      simp only [updateProgress, h1, h2, h3, he, hf, JSNumber.add, JSNumber.toStr,
        Option.toList, List.map_append, List.sum_append, List.flatMap_append]
      simp [truthy]
    | none =>
      have hthrow : ∃ msg, earlyThrow (env.fetch j) = some msg := by
        rcases h j (by omega) with hsome | hthrow
        · simp [hd] at hsome
        · exact hthrow
      obtain ⟨msg, hmsg⟩ := hthrow
      rw [← hcalls] at hmsg
      simp only [afterBatches]
      rw [batchStep_earlyThrow env pdfFiles _ _ msg hmsg, succeeded_succ, hd]
      simp only [Option.toList, List.append_nil]
      exact ⟨h1, h2, h3, by simpa [beforeTry, updateProgress] using h4,
        by simpa [beforeTry, updateProgress] using h5⟩

theorem finish_page_fields (s : RunState) :
    (finish s).page.resultsBody = s.page.resultsBody ∧
    (finish s).page.statSuccess = s.page.statSuccess ∧
    (finish s).page.statFail = s.page.statFail := by
  simp only [finish, updateProgress]
  split <;> exact ⟨rfl, rfl, rfl⟩

/-- When every response counts one outcome per submitted file, the counts
reported for the first `j` batches sum to the number of files in them. -/
theorem succeeded_sums (env : Env) (pdfFiles : List FileHandle) (j : Nat)
    (hall : ∀ m, m < j → ∃ d, batchData (env.fetch m) = some d ∧
      d.exitosos + d.fallidos = d.resultados.length ∧
      d.resultados.length = (batchAt pdfFiles m).length) :
    ((succeeded env j).map BatchResponse.exitosos).sum +
      ((succeeded env j).map BatchResponse.fallidos).sum = ((pdfFiles.take (10 * j)).length : Int) := by
  induction j with
  | zero => simp [succeeded]
  | succ j ih =>
    obtain ⟨d, hd, hsum, hlen⟩ := hall j (by omega)
    have ih' := ih (fun m hm => hall m (by omega))
    have hb := batchAt_length pdfFiles j
    rw [succeeded_succ, hd]
    simp only [Option.toList, List.map_append, List.sum_append, List.map_cons, List.map_nil,
      List.sum_cons, List.sum_nil, add_zero]
    have htake : ((pdfFiles.take (10 * (j + 1))).length : Int) =
        ((pdfFiles.take (10 * j)).length : Int) + ((batchAt pdfFiles j).length : Int) := by
      rw [hb]
      simp only [List.length_take]
      omega
    rw [htake, ← hlen, ← hsum, ← ih']
    ring

/-- Plain text is read to its end. -/
theorem text_run (v t : List Char) (attrs : List (String × String)) (done : List Cell)
    (rest : List Char) (h : ∀ c ∈ v, c ≠ '<' ∧ c ≠ '&') :
    readCells (ReadState.text t) attrs done (v ++ rest) =
      readCells (ReadState.text (t ++ v)) attrs done rest := by
  induction v generalizing t with
  | nil => simp
  | cons c v ih =>
    have hc := h c (List.mem_cons_self c v)
    have ih' := ih (t ++ [c]) (fun x hx => h x (List.mem_cons_of_mem c hx))
    have hstep : readCells (ReadState.text t) attrs done (c :: (v ++ rest)) =
        readCells (ReadState.text (t ++ [c])) attrs done (v ++ rest) := by
      simp [readCells, hc.1, hc.2]
    rw [List.cons_append, hstep, ih']
    simp

/-- A plain attribute value is read to its end. -/
theorem value_run (v name value : List Char) (attrs : List (String × String))
    (done : List Cell) (rest : List Char) (h : ∀ c ∈ v, c ≠ '"' ∧ c ≠ '&') :
    readCells (ReadState.attrValue name value) attrs done (v ++ rest) =
      readCells (ReadState.attrValue name (value ++ v)) attrs done rest := by
  induction v generalizing value with
  | nil => simp
  | cons c v ih =>
    have hc := h c (List.mem_cons_self c v)
    have ih' := ih (value ++ [c]) (fun x hx => h x (List.mem_cons_of_mem c hx))
    have hstep : readCells (ReadState.attrValue name value) attrs done (c :: (v ++ rest)) =
        readCells (ReadState.attrValue name (value ++ [c])) attrs done (v ++ rest) := by
      simp [readCells, hc.1, hc.2]
    rw [List.cons_append, hstep, ih']
    simp

theorem open_plain_cell (done : List Cell) (rest : List Char) (attrs : List (String × String)) :
    readCells ReadState.between attrs done
      ("\n            <td class=\"px-6 py-4\">".data ++ rest) =
      readCells (ReadState.text []) [("class", "px-6 py-4")] done rest := by
  rfl

theorem close_cell (t : List Char) (done : List Cell) (rest : List Char)
    (attrs : List (String × String)) :
    readCells (ReadState.text t) attrs done ("</td>".data ++ rest) =
      readCells ReadState.between [] (done ++ [⟨attrs, String.mk t⟩]) rest := by
  rfl

theorem open_class_value (done : List Cell) (rest : List Char) (attrs : List (String × String)) :
    readCells ReadState.between attrs done
      ("\n            <td class=\"px-6 py-4 ".data ++ rest) =
      readCells (ReadState.attrValue "class".data "px-6 py-4 ".data) [] done rest := by
  rfl

theorem end_tag (name value : List Char) (done : List Cell) (rest : List Char)
    (attrs : List (String × String)) :
    readCells (ReadState.attrValue name value) attrs done ("\">".data ++ rest) =
      readCells (ReadState.text []) (attrs ++ [(String.mk name, String.mk value)]) done rest := by
  rfl

theorem open_title_value (done : List Cell) (rest : List Char) (attrs : List (String × String)) :
    readCells ReadState.between attrs done
      ("\n            <td class=\"px-6 py-4 max-w-xs truncate\" title=\"".data ++ rest) =
      readCells (ReadState.attrValue "title".data [])
        [("class", "px-6 py-4 max-w-xs truncate")] done rest := by
  rfl

theorem read_tail (done : List Cell) (attrs : List (String × String)) :
    readCells ReadState.between attrs done "\n        ".data = some done := by
  rfl

theorem plain_text (s : String) (h : plain s = true) : ∀ c ∈ s.data, c ≠ '<' ∧ c ≠ '&' := by
  intro c hc
  have := List.all_eq_true.mp h c hc
  simp at this
  exact ⟨this.1.1, this.2⟩

theorem plain_value (s : String) (h : plain s = true) : ∀ c ∈ s.data, c ≠ '"' ∧ c ≠ '&' := by
  intro c hc
  have := List.all_eq_true.mp h c hc
  simp at this
  exact ⟨this.1.2, this.2⟩

/-- The markup of a row, piece by piece. -/
theorem rowHTML_data (c : RowCells) :
    (rowHTML c).data =
      "\n            <td class=\"px-6 py-4\">".data ++ (c.anio.data ++ ("</td>".data ++
      ("\n            <td class=\"px-6 py-4\">".data ++ (c.nivel.data ++ ("</td>".data ++
      ("\n            <td class=\"px-6 py-4\">".data ++ (c.grado_seccion.data ++ ("</td>".data ++
      ("\n            <td class=\"px-6 py-4 ".data ++ (c.statusClass.data ++ ("\">".data ++
        (c.estado.data ++ ("</td>".data ++
      ("\n            <td class=\"px-6 py-4 max-w-xs truncate\" title=\"".data ++
        (c.title.data ++ ("\">".data ++ (c.detalle.data ++ ("</td>".data ++
      "\n        ".data)))))))))))))))))) := by
  simp only [rowHTML, String.data_append, List.append_assoc]

/-- Reading the markup of a row whose interpolated strings are plain. -/
theorem readRow_rowHTML (c : RowCells) (h1 : plain c.anio = true) (h2 : plain c.nivel = true)
    (h3 : plain c.grado_seccion = true) (h4 : plain c.statusClass = true)
    (h5 : plain c.estado = true) (h6 : plain c.title = true) (h7 : plain c.detalle = true) :
    readRow (rowHTML c) = some
      [⟨[("class", "px-6 py-4")], c.anio⟩,
       ⟨[("class", "px-6 py-4")], c.nivel⟩,
       ⟨[("class", "px-6 py-4")], c.grado_seccion⟩,
       ⟨[("class", "px-6 py-4 " ++ c.statusClass)], c.estado⟩,
       ⟨[("class", "px-6 py-4 max-w-xs truncate"), ("title", c.title)], c.detalle⟩] := by
  unfold readRow
  rw [rowHTML_data]
  rw [open_plain_cell, text_run _ _ _ _ _ (plain_text _ h1), close_cell]
  rw [open_plain_cell, text_run _ _ _ _ _ (plain_text _ h2), close_cell]
  rw [open_plain_cell, text_run _ _ _ _ _ (plain_text _ h3), close_cell]
  rw [open_class_value, value_run _ _ _ _ _ _ (plain_value _ h4), end_tag,
    text_run _ _ _ _ _ (plain_text _ h5), close_cell]
  rw [open_title_value, value_run _ _ _ _ _ _ (plain_value _ h6), end_tag,
    text_run _ _ _ _ _ (plain_text _ h7), close_cell]
  rw [read_tail]
  rfl

theorem plain_strToString_orElse (a b : Option String) (ha : plainOpt a = true)
    (hb : plainOpt b = true) : plain (strToString (orElse a b)) = true := by
  unfold orElse
  split
  · cases a with
    | none => rfl
    | some v => exact ha
  · cases b with
    | none => rfl
    | some v => exact hb

/-- The interpolated strings of a plain outcome are plain. -/
theorem plain_rowCells (res : FileOutcome) (h : plainOutcome res = true) :
    plain (rowCells res).anio = true ∧ plain (rowCells res).nivel = true ∧
    plain (rowCells res).grado_seccion = true ∧ plain (rowCells res).statusClass = true ∧
    plain (rowCells res).estado = true ∧ plain (rowCells res).title = true ∧
    plain (rowCells res).detalle = true := by
  simp only [plainOutcome, Bool.and_eq_true] at h
  obtain ⟨⟨⟨⟨⟨he, hn⟩, hm⟩, h1⟩, h2⟩, h3⟩ := h
  refine ⟨plain_strToString_orElse _ _ h1 rfl, plain_strToString_orElse _ _ h2 rfl,
    plain_strToString_orElse _ _ h3 rfl, ?_, he, plain_strToString_orElse _ _ hn hm,
    plain_strToString_orElse _ _ hn hm⟩
  simp only [rowCells]
  split <;> decide

/-- The loop bound is never reached: `handleFiles` returns on every input. -/
theorem handleFiles_returns (env : Env) (files : List FileHandle) (page : Page) :
    ∃ r, handleFiles env files page = some r := by
  by_cases h : filterPdf files = []
  · by_cases hf : files.length = 0
    · exact ⟨{ page := page, trace := [], totals := none }, by simp [handleFiles, hf]⟩
    · exact ⟨{ page := page, trace := [Event.alert noPdfNotice], totals := none },
        by simp [handleFiles, hf, h]⟩
  · exact ⟨_, handleFiles_eq env files page h⟩

/-! ## The claims -/

/-- Claim C1 (Batch Partitioner). For every list `pdfFiles` of `N` eligible files
and whatever the server answers, the loop of `handleFiles` returns, and the
payloads it submits form a list `B` of exactly `⌈N / 10⌉` batches; batch `j`
holds the input elements at positions `[10 j, min (10 j + 10) N)`; the batches
concatenated in order are the input; their sizes sum to `N`; every batch but the
last has size 10; the last one is non-empty and has size
`N - 10 * (⌈N / 10⌉ - 1)`. -/
theorem uploadLoop_batches (env : Env) (pdfFiles : List FileHandle) (s : RunState) :
    ∃ s' B, uploadLoop env pdfFiles pdfFiles.length 0 s = some s' ∧
      requests s'.trace = requests s.trace ++ B ∧
      B.length = ⌈(pdfFiles.length : ℚ) / 10⌉₊ ∧
      (∀ j, j < B.length →
        B[j]? = some ((pdfFiles.take (min (10 * j + 10) pdfFiles.length)).drop (10 * j))) ∧
      B.flatten = pdfFiles ∧
      (B.map List.length).sum = pdfFiles.length ∧
      (∀ j b, j + 1 < B.length → B[j]? = some b → b.length = 10) ∧
      (∀ b, B.getLast? = some b →
        b ≠ [] ∧ b.length = pdfFiles.length - 10 * (⌈(pdfFiles.length : ℚ) / 10⌉₊ - 1)) := by
  have hB : ∀ j, j < batchCount pdfFiles.length →
      ((List.range (batchCount pdfFiles.length)).map (batchAt pdfFiles))[j]? =
        some (batchAt pdfFiles j) := by
    intro j hj
    simp [List.getElem?_map, List.getElem?_range hj]
  have hflat : ((List.range (batchCount pdfFiles.length)).map (batchAt pdfFiles)).flatten
      = pdfFiles := by
    rw [batches_flatten]
    apply List.take_of_length_le
    unfold batchCount; omega
  refine ⟨afterBatches env pdfFiles s (batchCount pdfFiles.length),
    (List.range (batchCount pdfFiles.length)).map (batchAt pdfFiles),
    uploadLoop_eq env pdfFiles s, afterBatches_requests env pdfFiles s _, ?_, ?_, hflat, ?_, ?_, ?_⟩
  · rw [← batchCount_eq_ceil]; simp
  · intro j hj
    simp only [List.length_map, List.length_range] at hj
    rw [hB j hj, batchAt_eq, List.take_drop]
    have htake : List.take (10 * j + 10) pdfFiles =
        List.take (min (10 * j + 10) pdfFiles.length) pdfFiles := by
      rw [List.take_eq_take]; omega
    rw [htake]
  · rw [← List.length_flatten, hflat]
  · intro j b hj hb
    simp only [List.length_map, List.length_range] at hj
    rw [hB j (by omega)] at hb
    cases hb
    rw [batchAt_length]
    have := (lt_batchCount_iff _ (j + 1)).mp hj
    omega
  · intro b hb
    rw [← batchCount_eq_ceil]
    cases hk : batchCount pdfFiles.length with
    | zero => simp [hk] at hb
    | succ k =>
      rw [hk, List.range_succ, List.map_append, List.map_cons, List.map_nil,
        List.getLast?_concat] at hb
      cases hb
      have hlt := (lt_batchCount_iff pdfFiles.length k).mp (by omega)
      have hlen := batchAt_length pdfFiles k
      have hle : pdfFiles.length ≤ 10 * k + 10 := by unfold batchCount at hk; omega
      constructor
      · intro h0
        rw [h0] at hlen
        simp at hlen
        omega
      · rw [hlen]
        simp only [Nat.add_sub_cancel]
        omega

/-- Claim C1 at `N = 25`: the loop returns, the batches concatenate to the input,
and their sizes are `[10, 10, 5]`. -/
theorem uploadLoop_batches_witness :
    (∃ s' B, uploadLoop envDown (pdfs 25) (pdfs 25).length 0 (initialState pg0) = some s' ∧
      requests s'.trace = requests (initialState pg0).trace ++ B ∧ B.flatten = pdfs 25) ∧
    (uploadLoop envDown (pdfs 25) (pdfs 25).length 0 (initialState pg0)).map
      (fun s => (requests s.trace).map List.length) = some [10, 10, 5] := by
  obtain ⟨s', B, hrun, hreq, _, _, hflat, _⟩ :=
    uploadLoop_batches envDown (pdfs 25) (initialState pg0)
  exact ⟨⟨s', B, hrun, hreq, hflat⟩, by decide⟩

/-- Claim C2 (File Filter). For every input list, `pdfFiles` is exactly the
sub-sequence, in input order, of the files whose lower-cased name ends with
`.pdf`: it is the filter of the input by that test, hence a sublist of the input
no longer than it, each of its elements passes the test, and no file of the
input that passes the test is left out. -/
theorem filterPdf_spec (files : List FileHandle) :
    filterPdf files = files.filter (fun f => endsWith (toLowerCase f.name) ".pdf") ∧
    List.Sublist (filterPdf files) files ∧
    (filterPdf files).length ≤ files.length ∧
    (∀ f ∈ filterPdf files, endsWith (toLowerCase f.name) ".pdf" = true) ∧
    (∀ f ∈ files, endsWith (toLowerCase f.name) ".pdf" = true → f ∈ filterPdf files) := by
  have h : filterPdf files = files.filter (fun f => endsWith (toLowerCase f.name) ".pdf") :=
    filterPdf_eq_filter files
  refine ⟨h, ?_, ?_, ?_, ?_⟩
  · rw [h]; exact List.filter_sublist files
  · rw [h]; exact List.length_filter_le _ files
  · intro f hf
    rw [h] at hf
    simpa using (List.mem_filter.mp hf).2
  · intro f hf hp
    rw [h]
    exact List.mem_filter.mpr ⟨hf, by simpa using hp⟩

/-- Claim C2 on a selection of five files, three of them eligible. -/
theorem filterPdf_spec_witness :
    filterPdf mixedSelection = [⟨"a.PDF", []⟩, ⟨"c.pdf", []⟩, ⟨".Pdf", []⟩] :=
  (filterPdf_spec mixedSelection).1.trans (by decide)

/-- Claim C3, amended (Upload Orchestrator totals). For every run over `N ≥ 1`
eligible files in which every batch is answered by a well-formed success response
with `exitosos + fallidos = length resultados` and with one outcome per file of
the batch it answers, `handleFiles` returns with integer accumulators satisfying
`exitososTotal + fallidosTotal = N`. -/
theorem totals_sum_to_totalFiles (env : Env) (files : List FileHandle) (page : Page)
    (h : filterPdf files ≠ [])
    (hall : ∀ m, m < batchCount (filterPdf files).length →
      ∃ d, batchData (env.fetch m) = some d ∧
        d.exitosos + d.fallidos = d.resultados.length ∧
        d.resultados.length = (batchAt (filterPdf files) m).length) :
    ∃ r E F, handleFiles env files page = some r ∧
      r.totals = some (JSNumber.int E, JSNumber.int F) ∧
      E + F = (filterPdf files).length := by
  have hsum := afterBatches_summary env (filterPdf files) page
    (batchCount (filterPdf files).length) (fun m hm => by
      obtain ⟨d, hd, _⟩ := hall m hm
      exact Or.inl (by simp [hd]))
  obtain ⟨h1, h2, _⟩ := hsum
  refine ⟨_, ((succeeded env (batchCount (filterPdf files).length)).map
      BatchResponse.exitosos).sum,
    ((succeeded env (batchCount (filterPdf files).length)).map BatchResponse.fallidos).sum,
    handleFiles_eq env files page h, ?_, ?_⟩
  · simp only [finish, h1, h2]
  · rw [succeeded_sums env (filterPdf files) _ hall]
    have : (filterPdf files).length ≤ 10 * batchCount (filterPdf files).length := by
      unfold batchCount; omega
    rw [List.take_of_length_le this]

/-- Claim C3, amended, on 25 files answered with one successful outcome each: the
hypotheses hold and the accumulators sum to 25. -/
theorem totals_sum_to_totalFiles_witness :
    filterPdf (pdfs 25) ≠ [] ∧
    (∀ m, m < batchCount (filterPdf (pdfs 25)).length →
      ∃ d, batchData ((envAllOk (filterPdf (pdfs 25))).fetch m) = some d ∧
        d.exitosos + d.fallidos = d.resultados.length ∧
        d.resultados.length = (batchAt (filterPdf (pdfs 25)) m).length) ∧
    ∃ r E F, handleFiles (envAllOk (filterPdf (pdfs 25))) (pdfs 25) pg0 = some r ∧
      r.totals = some (JSNumber.int E, JSNumber.int F) ∧ E + F = 25 := by
  have h : filterPdf (pdfs 25) ≠ [] := by decide
  have hall : ∀ m, m < batchCount (filterPdf (pdfs 25)).length →
      ∃ d, batchData ((envAllOk (filterPdf (pdfs 25))).fetch m) = some d ∧
        d.exitosos + d.fallidos = d.resultados.length ∧
        d.resultados.length = (batchAt (filterPdf (pdfs 25)) m).length :=
    fun m _ => ⟨_, rfl, by simp, by simp⟩
  obtain ⟨r, E, F, hr, ht, hsum⟩ :=
    totals_sum_to_totalFiles (envAllOk (filterPdf (pdfs 25))) (pdfs 25) pg0 h hall
  have hlen : (filterPdf (pdfs 25)).length = 25 := by decide
  rw [hlen] at hsum
  exact ⟨h, hall, r, E, F, hr, ht, by exact_mod_cast hsum⟩

/-- Claim C3 as stated fails: one eligible file, answered with status 200, zero
counts and an empty `resultados`. No batch fails and the response satisfies
`exitosos + fallidos = length resultados`, yet the accumulators end at `0` and
`0`, whose sum is not the number of files. -/
theorem totals_short_response :
    (∀ m, m < batchCount (filterPdf (pdfs 1)).length →
      ∃ d, batchData (envEmptyAnswer.fetch m) = some d ∧
        d.exitosos + d.fallidos = d.resultados.length) ∧
    (∃ r, handleFiles envEmptyAnswer (pdfs 1) pg0 = some r ∧ alerts r.trace = [] ∧
      requests r.trace = [pdfs 1] ∧
      r.totals = some (JSNumber.int 0, JSNumber.int 0)) ∧
    (0 : Int) + 0 ≠ ((filterPdf (pdfs 1)).length : Int) :=
  ⟨fun _ _ => ⟨⟨0, 0, []⟩, rfl, rfl⟩, ⟨_, rfl, rfl, rfl, rfl⟩, by decide⟩

/-- Claim C4, amended (a failed batch leaves the totals untouched). For every
iteration whose submission fails by transport error, by a non-success HTTP
status, or by a success status whose body cannot be parsed, the values of
`exitososTotal` and `fallidosTotal`, the two displayed counters and the table
after the iteration equal their values before it, and exactly one alert is
shown. -/
theorem failed_batch_keeps_totals (env : Env) (pdfFiles : List FileHandle) (i : Nat)
    (s : RunState)
    (hfail : (∃ msg, env.fetch s.fetchCalls = FetchResult.networkError msg) ∨
      (∃ status body, env.fetch s.fetchCalls = FetchResult.response status body ∧
        responseOk status = false) ∨
      (∃ status msg, env.fetch s.fetchCalls =
        FetchResult.response status (Body.unparseable msg))) :
    (batchStep env pdfFiles i s).exitososTotal = s.exitososTotal ∧
    (batchStep env pdfFiles i s).fallidosTotal = s.fallidosTotal ∧
    (batchStep env pdfFiles i s).page.statSuccess = s.page.statSuccess ∧
    (batchStep env pdfFiles i s).page.statFail = s.page.statFail ∧
    (batchStep env pdfFiles i s).page.resultsBody = s.page.resultsBody ∧
    ∃ msg, alerts (batchStep env pdfFiles i s).trace =
      alerts s.trace ++ ["Error en lote: " ++ msg] := by
  have hthrow : ∃ msg, earlyThrow (env.fetch s.fetchCalls) = some msg := by
    rcases hfail with ⟨msg, hr⟩ | ⟨status, body, hr, hok⟩ | ⟨status, msg, hr⟩
    · exact ⟨msg, by rw [hr]; rfl⟩
    · exact submissionFailed_earlyThrow _ (by rw [hr]; simp [submissionFailed, hok])
    · exact ⟨msg, by rw [hr]; rfl⟩
  obtain ⟨msg, hmsg⟩ := hthrow
  rw [batchStep_earlyThrow env pdfFiles i s msg hmsg]
  have hpage : (beforeTry pdfFiles i s).page.statSuccess = s.page.statSuccess ∧
      (beforeTry pdfFiles i s).page.statFail = s.page.statFail ∧
      (beforeTry pdfFiles i s).page.resultsBody = s.page.resultsBody := by
    simp only [beforeTry, updateProgress]
    split <;> exact ⟨rfl, rfl, rfl⟩
  refine ⟨rfl, rfl, hpage.1, hpage.2.1, hpage.2.2, msg, ?_⟩
  simp [beforeTry_trace, alerts_append, alerts]

/-- Claim C4, amended, for a batch answered with status 500: the accumulators and
the counters stay at zero. -/
theorem failed_batch_keeps_totals_witness :
    (envOverloaded.fetch (initialState pg0).fetchCalls =
        FetchResult.response 500 (Body.json ⟨some "server overloaded", none, none, none⟩) ∧
      responseOk 500 = false) ∧
    (batchStep envOverloaded (pdfs 15) 0 (initialState pg0)).exitososTotal = JSNumber.int 0 ∧
    (batchStep envOverloaded (pdfs 15) 0 (initialState pg0)).fallidosTotal = JSNumber.int 0 ∧
    (batchStep envOverloaded (pdfs 15) 0 (initialState pg0)).page.statSuccess = "0 Éxitos" ∧
    (batchStep envOverloaded (pdfs 15) 0 (initialState pg0)).page.statFail = "0 Errores" := by
  obtain ⟨h1, h2, h3, h4, _⟩ :=
    failed_batch_keeps_totals envOverloaded (pdfs 15) 0 (initialState pg0)
      (Or.inr (Or.inl ⟨500, _, rfl, rfl⟩))
  exact ⟨⟨rfl, rfl⟩, h1, h2, h3, h4⟩

/-- Claim C4 as stated fails: a batch answered with status 200 and the body
`{"exitosos": 3, "fallidos": 1}`, without `resultados`. The iteration ends in
`catch` (an alert is shown), but the accumulators and the displayed counters have
been raised to 3 and 1. And when the counts are missing while `resultados` is
present, nothing is thrown at all: the accumulators and the counters become
`NaN`. -/
theorem partial_increment_without_resultados :
    envNoResultados.fetch 0 =
      FetchResult.response 200 (Body.json ⟨none, some 3, some 1, none⟩) ∧
    responseOk 200 = true ∧
    alerts (batchStep envNoResultados (pdfs 4) 0 (initialState pg0)).trace =
      ["Error en lote: resultados is undefined"] ∧
    (initialState pg0).exitososTotal = JSNumber.int 0 ∧
    (initialState pg0).fallidosTotal = JSNumber.int 0 ∧
    (batchStep envNoResultados (pdfs 4) 0 (initialState pg0)).exitososTotal = JSNumber.int 3 ∧
    (batchStep envNoResultados (pdfs 4) 0 (initialState pg0)).fallidosTotal = JSNumber.int 1 ∧
    (initialState pg0).page.statSuccess = "0 Éxitos" ∧
    (batchStep envNoResultados (pdfs 4) 0 (initialState pg0)).page.statSuccess = "3 Éxitos" ∧
    (batchStep envNoResultados (pdfs 4) 0 (initialState pg0)).page.statFail = "1 Errores" ∧
    alerts (batchStep envNoCounts (pdfs 1) 0 (initialState pg0)).trace = [] ∧
    (batchStep envNoCounts (pdfs 1) 0 (initialState pg0)).exitososTotal = JSNumber.nan ∧
    (batchStep envNoCounts (pdfs 1) 0 (initialState pg0)).page.statSuccess = "NaN Éxitos" := by
  decide

/-- Claim C5 (a batch failure does not abort the run). For every run over at
least one eligible file in which each batch is answered by a well-formed success
response or fails by transport error or non-success status, `handleFiles`
returns; all `⌈N / 10⌉` batches were submitted, once each and in order; the table
holds exactly the rows of the `resultados` of the batches that succeeded, in
batch order and outcome order; and the displayed counters are the sums of
`exitosos` and of `fallidos` over those batches. -/
theorem run_reflects_successful_batches (env : Env) (files : List FileHandle) (page : Page)
    (h : filterPdf files ≠ [])
    (hout : ∀ m, m < batchCount (filterPdf files).length →
      (batchData (env.fetch m)).isSome = true ∨ submissionFailed (env.fetch m) = true) :
    ∃ r, handleFiles env files page = some r ∧
      requests r.trace =
        (List.range (batchCount (filterPdf files).length)).map (batchAt (filterPdf files)) ∧
      (requests r.trace).length = ⌈((filterPdf files).length : ℚ) / 10⌉₊ ∧
      r.page.resultsBody =
        (succeeded env (batchCount (filterPdf files).length)).flatMap
          (fun d => d.resultados.map renderRow) ∧
      r.page.statSuccess =
        toString ((succeeded env (batchCount (filterPdf files).length)).map
          BatchResponse.exitosos).sum ++ " Éxitos" ∧
      r.page.statFail =
        toString ((succeeded env (batchCount (filterPdf files).length)).map
          BatchResponse.fallidos).sum ++ " Errores" := by
  have hsum := afterBatches_summary env (filterPdf files) page
    (batchCount (filterPdf files).length) (fun m hm => by
      rcases hout m hm with h1 | h2
      · exact Or.inl h1
      · exact Or.inr (submissionFailed_earlyThrow _ h2))
  obtain ⟨_, _, h3, h4, h5⟩ := hsum
  obtain ⟨f1, f2, f3⟩ := finish_page_fields (afterBatches env (filterPdf files)
    (initialState page) (batchCount (filterPdf files).length))
  have hreq : requests (finish (afterBatches env (filterPdf files) (initialState page)
      (batchCount (filterPdf files).length))).trace =
      (List.range (batchCount (filterPdf files).length)).map (batchAt (filterPdf files)) := by
    simp only [finish, updateProgress, requests_append, afterBatches_requests]
    simp [initialState, requests]
  refine ⟨_, handleFiles_eq env files page h, hreq, ?_, ?_, ?_, ?_⟩
  · rw [hreq, ← batchCount_eq_ceil]; simp
  · rw [f1, h3]
  · rw [f2, h4]
  · rw [f3, h5]

/-- Claim C5 on 15 files: batch 1 succeeds with 9 successes and 1 failure,
batch 2 of 2 fails with HTTP 500. Both batches are submitted, the rows and the
counters are those of batch 1 only. -/
theorem run_reflects_successful_batches_witness :
    filterPdf (pdfs 15) ≠ [] ∧
    (∀ m, m < batchCount (filterPdf (pdfs 15)).length →
      (batchData (envSecondFails.fetch m)).isSome = true ∨
        submissionFailed (envSecondFails.fetch m) = true) ∧
    ∃ r, handleFiles envSecondFails (pdfs 15) pg0 = some r ∧
      (requests r.trace).map List.length = [10, 5] ∧
      r.page.resultsBody = (List.replicate 9 okOutcome ++ [errorOutcome]).map renderRow ∧
      r.page.statSuccess = "9 Éxitos" ∧ r.page.statFail = "1 Errores" := by
  have h : filterPdf (pdfs 15) ≠ [] := by decide
  have hout : ∀ m, m < batchCount (filterPdf (pdfs 15)).length →
      (batchData (envSecondFails.fetch m)).isSome = true ∨
        submissionFailed (envSecondFails.fetch m) = true := by decide
  obtain ⟨r, hr, hreq, _, hrows, hs, hf⟩ :=
    run_reflects_successful_batches envSecondFails (pdfs 15) pg0 h hout
  exact ⟨h, hout, r, hr, by rw [hreq]; decide, hrows, hs, hf⟩

/-- Claim C6 (progress monotonicity). For every run over `N ≥ 1` eligible files
and whatever the server answers, the percent values passed to `updateProgress`
are, batch by batch, `round (i / N * 100)` before the batch at offset `i` and
`round (min (i + 10) N / N * 100)` after it when its `try` block ran to the end,
followed by the final 100; this sequence is non-decreasing, every value lies in
`[0, 100]`, and the last value is 100. -/
theorem progress_monotone (env : Env) (files : List FileHandle) (page : Page)
    (h : filterPdf files ≠ []) :
    ∃ r, handleFiles env files page = some r ∧
      percents r.trace =
        (List.range (batchCount (filterPdf files).length)).flatMap
          (stepPercents env (filterPdf files).length) ++ [100] ∧
      List.Sorted (· ≤ ·) (percents r.trace) ∧
      (∀ p ∈ percents r.trace, 0 ≤ p ∧ p ≤ 100) ∧
      (percents r.trace).getLast? = some 100 := by
  have hn : 0 < (filterPdf files).length := List.length_pos.mpr h
  have hper : percents (finish (afterBatches env (filterPdf files) (initialState page)
      (batchCount (filterPdf files).length))).trace =
        (List.range (batchCount (filterPdf files).length)).flatMap
          (stepPercents env (filterPdf files).length) ++ [100] := by
    have := afterBatches_percents env (filterPdf files) (initialState page) rfl
      (batchCount (filterPdf files).length) (Nat.le_refl _)
    simp only [finish, updateProgress, percents_append, this]
    simp [initialState, percents]
  obtain ⟨hs, hb⟩ := stepPercents_sorted env (filterPdf files).length
    (batchCount (filterPdf files).length) (Nat.le_refl _)
  have hle : ∀ p ∈ (List.range (batchCount (filterPdf files).length)).flatMap
      (stepPercents env (filterPdf files).length), p ≤ 100 := by
    intro p hp
    obtain ⟨x, hx, rfl⟩ := hb p hp
    exact roundPercent_le x _ hn (by omega)
  refine ⟨_, handleFiles_eq env files page h, hper, ?_, ?_, ?_⟩
  · rw [hper, List.Sorted, List.pairwise_append]
    refine ⟨hs, List.pairwise_singleton _ _, ?_⟩
    intro a ha b hb'
    simp only [List.mem_singleton] at hb'
    subst hb'
    exact hle a ha
  · intro p hp
    rw [hper, List.mem_append] at hp
    rcases hp with hp | hp
    · exact ⟨Nat.zero_le _, hle p hp⟩
    · simp only [List.mem_singleton] at hp
      omega
  · rw [hper, List.getLast?_concat]

/-- Claim C6 at `N = 25`, batch 1 succeeding and batches 2 and 3 failing: after
batch 1 the percent is `round (10 / 25 * 100) = 40`, and the run ends at 100. -/
theorem progress_monotone_witness :
    filterPdf (pdfs 25) ≠ [] ∧
    ∃ r, handleFiles envSecondFails (pdfs 25) pg0 = some r ∧
      percents r.trace = [0, 40, 40, 80, 100] ∧ roundPercent 10 25 = 40 ∧
      List.Sorted (· ≤ ·) (percents r.trace) := by
  have h : filterPdf (pdfs 25) ≠ [] := by decide
  obtain ⟨r, hr, hper, hsorted, _⟩ := progress_monotone envSecondFails (pdfs 25) pg0 h
  exact ⟨h, r, hr, hper.trans (by decide), by decide, hsorted⟩

/-- Claim C7, amended (progress before the last response). For every run over
`N ≥ 1` eligible files (`N ≤ 2 ^ 32`, more than a JavaScript array can hold), the
progress updates emitted up to the submission of the last batch all carry less
than 100 exactly when `200 * i < 199 * N` for the offset
`i = 10 * (⌈N / 10⌉ - 1)` of the last batch; in particular they all do whenever
`N ≤ 200`. -/
theorem progress_before_last_response (env : Env) (files : List FileHandle) (page : Page)
    (h : filterPdf files ≠ []) :
    ∃ r, handleFiles env files page = some r ∧
      ((filterPdf files).length ≤ 4294967296 →
        ((∀ p ∈ percents (uptoLastFetch r.trace), p < 100) ↔
          200 * (10 * (batchCount (filterPdf files).length - 1)) <
            199 * (filterPdf files).length)) ∧
      ((filterPdf files).length ≤ 200 → ∀ p ∈ percents (uptoLastFetch r.trace), p < 100) := by
  have hn : 0 < (filterPdf files).length := List.length_pos.mpr h
  have hiff : (filterPdf files).length ≤ 4294967296 →
      ((∀ p ∈ percents (uptoLastFetch (finish (afterBatches env (filterPdf files)
        (initialState page) (batchCount (filterPdf files).length))).trace), p < 100) ↔
        200 * (10 * (batchCount (filterPdf files).length - 1)) <
          199 * (filterPdf files).length) := by
    intro hbig
    rw [percents_uptoLastFetch env files page h, ← roundPercent_lt_iff _ _ hn hbig]
    constructor
    · intro hall
      exact hall _ (by simp)
    · intro hlast p hp
      rw [List.mem_append] at hp
      rcases hp with hp | hp
      · obtain ⟨x, hx, rfl⟩ := (stepPercents_sorted env (filterPdf files).length
          (batchCount (filterPdf files).length - 1) (by omega)).2 p hp
        exact lt_of_le_of_lt (roundPercent_mono _ hn (by omega)) hlast
      · simp only [List.mem_singleton] at hp
        rw [hp]; exact hlast
  refine ⟨_, handleFiles_eq env files page h, hiff, ?_⟩
  intro hle
  apply (hiff (by omega)).mpr
  unfold batchCount
  omega

/-- Claim C7, amended, at `N = 25`: no update before the last response carries
100. -/
theorem progress_before_last_response_witness :
    filterPdf (pdfs 25) ≠ [] ∧
    ∃ r, handleFiles envSecondFails (pdfs 25) pg0 = some r ∧
      ∀ p ∈ percents (uptoLastFetch r.trace), p < 100 := by
  have h : filterPdf (pdfs 25) ≠ [] := by decide
  obtain ⟨r, hr, _, hsmall⟩ := progress_before_last_response envSecondFails (pdfs 25) pg0 h
  exact ⟨h, r, hr, hsmall (by decide)⟩

set_option maxRecDepth 100000 in
/-- Claim C7 as stated fails at `N = 201`: the update that precedes the
submission of the last batch (offset 200) carries `round (200 / 201 * 100)`,
which is 100. -/
theorem progress_full_before_last_response :
    roundPercent 200 201 = 100 ∧
    ∃ r, handleFiles envDown (pdfs 201) pg0 = some r ∧
      (requests r.trace).length = 21 ∧
      (percents (uptoLastFetch r.trace)).getLast? = some 100 ∧
      ¬ ∀ p ∈ percents (uptoLastFetch r.trace), p < 100 := by
  refine ⟨by decide, _, rfl, by decide, by decide, ?_⟩
  intro hall
  exact absurd (hall 100 (by decide)) (by decide)

/-- Claim C8, amended (batch error message). For every batch answered with a
non-success HTTP status and a body that parses as a JSON object, the message
alerted is the `detail` member when it is a non-empty string, and the generic
message `Error en el procesamiento del lote` when `detail` is absent or empty. -/
theorem error_message_selection (env : Env) (pdfFiles : List FileHandle) (i : Nat)
    (s : RunState) (status : Nat) (o : ResponseObject)
    (hr : env.fetch s.fetchCalls = FetchResult.response status (Body.json o))
    (hok : responseOk status = false) :
    (∀ d, o.detail = some d → d ≠ "" →
      alerts (batchStep env pdfFiles i s).trace = alerts s.trace ++ ["Error en lote: " ++ d]) ∧
    (o.detail = none ∨ o.detail = some "" →
      alerts (batchStep env pdfFiles i s).trace =
        alerts s.trace ++ ["Error en lote: " ++ genericMessage]) := by
  have hthrow : earlyThrow (env.fetch s.fetchCalls) =
      some (strToString (orElse o.detail (some genericMessage))) := by
    rw [hr]; simp [earlyThrow, hok]
  have halerts : alerts (batchStep env pdfFiles i s).trace =
      alerts s.trace ++
        ["Error en lote: " ++ strToString (orElse o.detail (some genericMessage))] := by
    rw [batchStep_earlyThrow env pdfFiles i s _ hthrow]
    simp [beforeTry_trace, alerts_append, alerts]
  constructor
  · intro d hd hne
    rw [halerts, hd, orElse_some_nonempty d _ hne]
    rfl
  · intro hd
    rw [halerts]
    rcases hd with hd | hd
    · rw [hd, orElse_none]; rfl
    · rw [hd, orElse_empty]; rfl


/-- Claim C8, amended: status 500 with body `{"detail": "server overloaded"}`
reports `server overloaded`. -/
theorem error_message_selection_witness :
    (envOverloaded.fetch (initialState pg0).fetchCalls =
        FetchResult.response 500 (Body.json ⟨some "server overloaded", none, none, none⟩) ∧
      responseOk 500 = false) ∧
    alerts (batchStep envOverloaded (pdfs 15) 0 (initialState pg0)).trace =
      alerts (initialState pg0).trace ++ ["Error en lote: " ++ "server overloaded"] :=
  ⟨⟨rfl, rfl⟩,
    (error_message_selection envOverloaded (pdfs 15) 0 (initialState pg0) 500
      ⟨some "server overloaded", none, none, none⟩ rfl rfl).1 "server overloaded" rfl
      (by decide)⟩

/-- Claim C8 as stated fails. With status 502 and a body that is not JSON the
message alerted is the one of the parse error, not the generic message; with
status 500 and the body `{"detail": ""}` the message alerted is the generic one,
not the `detail` string. -/
theorem unparseable_error_body_message :
    envBadGateway.fetch 0 =
      FetchResult.response 502 (Body.unparseable "Unexpected end of JSON input") ∧
    responseOk 502 = false ∧
    alerts (batchStep envBadGateway (pdfs 4) 0 (initialState pg0)).trace =
      ["Error en lote: Unexpected end of JSON input"] ∧
    alerts (batchStep envBadGateway (pdfs 4) 0 (initialState pg0)).trace ≠
      ["Error en lote: " ++ genericMessage] ∧
    alerts (batchStep envEmptyDetail (pdfs 4) 0 (initialState pg0)).trace =
      ["Error en lote: " ++ genericMessage] ∧
    alerts (batchStep envEmptyDetail (pdfs 4) 0 (initialState pg0)).trace ≠
      ["Error en lote: " ++ ""] := by
  decide

/-- Claim C9, amended (no eligible files). For every selection whose filter
output is empty, `handleFiles` returns without submitting a request, without a
progress update and leaving the page as it was; when the selection is non-empty
it shows the notice that no PDF files were found, and when the selection itself
is empty it shows nothing. -/
theorem handleFiles_no_pdf (env : Env) (files : List FileHandle) (page : Page)
    (h : filterPdf files = []) :
    ∃ r, handleFiles env files page = some r ∧ r.page = page ∧ requests r.trace = [] ∧
      percents r.trace = [] ∧ r.totals = none ∧
      alerts r.trace = if files = [] then [] else [noPdfNotice] := by
  by_cases hf : files = []
  · subst hf
    exact ⟨_, rfl, rfl, rfl, rfl, rfl, rfl⟩
  · have hlen : files.length ≠ 0 := by simpa using hf
    refine ⟨{ page := page, trace := [Event.alert noPdfNotice], totals := none }, ?_, rfl, rfl, rfl,
      rfl, ?_⟩
    · simp [handleFiles, h, hf, noPdfNotice]
    · simp [hf, alerts]

/-- Claim C9, amended, on three files none of which ends in `.pdf`. -/
theorem handleFiles_no_pdf_witness :
    filterPdf threeOthers = [] ∧
    ∃ r, handleFiles envDown threeOthers pgUsed = some r ∧ r.page = pgUsed ∧
      requests r.trace = [] ∧ percents r.trace = [] ∧ r.totals = none ∧
      alerts r.trace = [noPdfNotice] :=
  ⟨by decide, handleFiles_no_pdf envDown threeOthers pgUsed (by decide)⟩

/-- Claim C9 as stated fails on the empty selection: its filter output is empty,
and `handleFiles` returns at line 58 without any notice. -/
theorem handleFiles_empty_selection_silent :
    filterPdf [] = [] ∧
    ∃ r, handleFiles envDown [] pgUsed = some r ∧ alerts r.trace = [] ∧ r.page = pgUsed ∧
      noPdfNotice ∉ alerts r.trace :=
  ⟨rfl, _, rfl, rfl, rfl, by decide⟩

/-- Claim C10, amended (row content). `appendResults` called with a list of
outcomes does not throw and appends one row per outcome, in order. For an outcome
whose strings contain none of `<`, `"` and `&` (they are written into the markup
unescaped), the markup of its row reads as five cells: year, level and grade or
section, each replaced by `-` when the metadata record or the field is absent
(and shown as is when present and non-empty); the status upper-cased; and the
detail text, which is also the value of the `title` attribute of its cell: the
new name whenever the outcome carries a non-empty one, whatever its status, and
otherwise the message. -/
theorem appendResults_row_content (env : Env) (rs : List FileOutcome) (exitosos fallidos : JSNumber)
    (s : RunState) :
    (appendResults env (some rs) exitosos fallidos s).2 = none ∧
    (appendResults env (some rs) exitosos fallidos s).1.page.resultsBody =
      s.page.resultsBody ++ rs.map renderRow ∧
    ∀ res ∈ rs, plainOutcome res = true →
      ∃ year level grade detail : String,
        readRow (renderRow res).innerHTML = some
          [⟨[("class", "px-6 py-4")], year⟩,
           ⟨[("class", "px-6 py-4")], level⟩,
           ⟨[("class", "px-6 py-4")], grade⟩,
           ⟨[("class", "px-6 py-4 " ++
              (if res.estado == "error" then "text-red-600 font-semibold"
               else "text-green-600 font-semibold"))], toUpperCase res.estado⟩,
           ⟨[("class", "px-6 py-4 max-w-xs truncate"), ("title", detail)], detail⟩] ∧
        (toUpperCase res.estado).data = res.estado.data.map
          (fun c => if 97 ≤ c.toNat ∧ c.toNat ≤ 122 then Char.ofNat (c.toNat - 32) else c) ∧
        (res.metadata = none → year = "-" ∧ level = "-" ∧ grade = "-") ∧
        (∀ m, res.metadata = some m →
          (m.anio = none → year = "-") ∧
          (m.nivel = none → level = "-") ∧
          (m.grado_seccion = none → grade = "-") ∧
          (∀ v, v ≠ "" → m.anio = some v → year = v) ∧
          (∀ v, v ≠ "" → m.nivel = some v → level = v) ∧
          (∀ v, v ≠ "" → m.grado_seccion = some v → grade = v)) ∧
        (∀ n, n ≠ "" → res.nuevo_nombre = some n → detail = n) ∧
        (res.nuevo_nombre = none ∨ res.nuevo_nombre = some "" →
          ∀ msg, res.mensaje = some msg → detail = msg) := by
  refine ⟨by rw [appendResults_some], by rw [appendResults_some], ?_⟩
  intro res _ hplain
  obtain ⟨h1, h2, h3, h4, h5, h6, h7⟩ := plain_rowCells res hplain
  refine ⟨(rowCells res).anio, (rowCells res).nivel, (rowCells res).grado_seccion,
    (rowCells res).detalle, ?_, ?_, ?_, ?_, ?_, ?_⟩
  · exact readRow_rowHTML (rowCells res) h1 h2 h3 h4 h5 h6 h7
  · simp only [toUpperCase, Char.toUpper]
    rfl
  · intro hm
    simp [rowCells, metaOf, hm, orElse_none, strToString]
  · intro m hm
    refine ⟨?_, ?_, ?_, ?_, ?_, ?_⟩
    · intro h; simp [rowCells, metaOf, hm, h, orElse_none, strToString]
    · intro h; simp [rowCells, metaOf, hm, h, orElse_none, strToString]
    · intro h; simp [rowCells, metaOf, hm, h, orElse_none, strToString]
    · intro v hv h; simp [rowCells, metaOf, hm, h, orElse_some_nonempty v _ hv, strToString]
    · intro v hv h; simp [rowCells, metaOf, hm, h, orElse_some_nonempty v _ hv, strToString]
    · intro v hv h; simp [rowCells, metaOf, hm, h, orElse_some_nonempty v _ hv, strToString]
  · intro n hn h
    simp [rowCells, h, orElse_some_nonempty n _ hn, strToString]
  · intro h msg hmsg
    rcases h with h | h
    · simp [rowCells, h, hmsg, orElse_none, strToString]
    · simp [rowCells, h, hmsg, orElse_empty, strToString]

set_option maxRecDepth 100000 in
/-- Claim C10, amended, on a successful outcome with year and level but no grade
and on a failed one without metadata: the rows read as stated. -/
theorem appendResults_row_content_witness :
    plainOutcome okOutcome = true ∧ plainOutcome errorOutcome = true ∧
    readRow (renderRow okOutcome).innerHTML = some
      [⟨[("class", "px-6 py-4")], "2020"⟩,
       ⟨[("class", "px-6 py-4")], "PRIMARIA"⟩,
       ⟨[("class", "px-6 py-4")], "-"⟩,
       ⟨[("class", "px-6 py-4 text-green-600 font-semibold")], "SUCCESS"⟩,
       ⟨[("class", "px-6 py-4 max-w-xs truncate"), ("title", "2020_PRIMARIA_1A.pdf")],
        "2020_PRIMARIA_1A.pdf"⟩] ∧
    (detailCell (renderRow errorOutcome).innerHTML).map Cell.text = some "No se pudo leer" := by
  have hok : plainOutcome okOutcome = true := by decide
  obtain ⟨year, level, grade, detail, hread, _, _, hmeta, hname, _⟩ :=
    (appendResults_row_content envDown [okOutcome, errorOutcome] (JSNumber.int 1)
      (JSNumber.int 1) (initialState pg0)).2.2 okOutcome (by decide) hok
  obtain ⟨_, _, hg, hy, hl, _⟩ := hmeta ⟨some "2020", some "PRIMARIA", none⟩ rfl
  have e1 : year = "2020" := hy "2020" (by decide) rfl
  have e2 : level = "PRIMARIA" := hl "PRIMARIA" (by decide) rfl
  have e3 : grade = "-" := hg rfl
  have e4 : detail = "2020_PRIMARIA_1A.pdf" := hname "2020_PRIMARIA_1A.pdf" (by decide) rfl
  subst e1 e2 e3 e4
  exact ⟨hok, by decide, hread, by decide⟩

set_option maxRecDepth 100000 in
/-- Claim C10 as stated fails. For an outcome with status `error`, message
`fallo` and new name `acta.pdf`, the detail text is the new name, not the
message. And for a new name that contains a double quote the `title` attribute
holds only what precedes the quote, so the cell and its `title` differ. -/
theorem detail_of_error_with_name :
    errorWithName.estado = "error" ∧ errorWithName.mensaje = some "fallo" ∧
    (detailCell (renderRow errorWithName).innerHTML).map Cell.text = some "acta.pdf" ∧
    (detailCell (renderRow errorWithName).innerHTML).map Cell.text ≠ some "fallo" ∧
    quotedName.nuevo_nombre = some "acta \"A\".pdf" ∧
    (detailCell (renderRow quotedName).innerHTML).map Cell.text = some "acta \"A\".pdf" ∧
    (detailCell (renderRow quotedName).innerHTML).bind (fun c => c.attr "title") =
      some "acta " := by
  decide

end ActasApp
